import Mathlib

/-!
Verification of the Cobra compiler's semantic middle end against its
natural-language specification.

The development contains two type models, mirroring the two divergent
revisions of the type grammar present in the repository (the spec notes the
divergence in its design notes):

* `Cobra.Rich` — the model of `src/src/ast/types.rs` (sized integers and
  floats, `Optional`, `Pointer`, `Interface`, `SelfType`).  Used for the
  conversion insertion (`Type::convert`) and for `is_instantiation_of`.
* `Cobra.TC` — the older unit-`Int` model that `src/src/passes/typechecker.rs`,
  `src/src/passes/typeresolver.rs` and `src/src/llrep/*.rs` are written
  against (those files use `Type::Int` without a size payload, one argument
  `array_type`, and `sum_type`/`enum_type` carrying an optional case index).
  The defining file of that revision is not part of the sources, so the
  constructor set is reconstructed from its uses in the three files above and
  from the spec's type grammar.

Source spans are represented as plain natural numbers; diagnostic message
strings are dropped (errors are compared by kind and payload).
-/

namespace Cobra

namespace Rich

/-- `IntSize` from src/src/ast/types.rs. -/
inductive IntSize where
  | i8 | i16 | i32 | i64
deriving DecidableEq, Repr

/-- `FloatSize` from src/src/ast/types.rs. -/
inductive FloatSize where
  | f32 | f64
deriving DecidableEq, Repr

/-- The `Type` enum of src/src/ast/types.rs.  `Generic(GenericType)` is split
into its two `GenericType` constructors (`Any(name)` and
`Restricted(constraints)`); struct members and sum cases are (name, type)
pairs; the `functions` payload of `Interface` is omitted (none of the
embedded operations inspects it, `is_generic` only looks at the generic
argument list). -/
inductive Ty where
  | void
  | unknown
  | int (size : IntSize)
  | uint (size : IntSize)
  | float (size : FloatSize)
  | char
  | bool
  | string
  | selfType
  | pointer (inner : Ty)
  | unresolved (name : String) (genericArgs : List Ty)
  | array (elementType : Ty) (len : Nat)
  | slice (elementType : Ty)
  | genericAny (name : String)
  | genericRestricted (constraints : List Ty)
  | func (args : List Ty) (returnType : Ty)
  | struct (name : String) (members : List (String × Ty))
  | sum (name : String) (cases : List (String × Ty))
  | enum (name : String) (cases : List String)
  | optional (inner : Ty)
  | interface (name : String) (genericArgs : List Ty)
deriving Repr

mutual

/-- Structural equality on `Ty`, mirroring the derived `PartialEq` of the
Rust `Type` enum (the `==` used throughout the sources). -/
def Ty.beq : Ty → Ty → Bool
  | .void, .void => true
  | .unknown, .unknown => true
  | .int a, .int b => a == b
  | .uint a, .uint b => a == b
  | .float a, .float b => a == b
  | .char, .char => true
  | .bool, .bool => true
  | .string, .string => true
  | .selfType, .selfType => true
  | .pointer a, .pointer b => Ty.beq a b
  | .unresolved n1 a1, .unresolved n2 a2 => n1 == n2 && Ty.beqList a1 a2
  | .array e1 l1, .array e2 l2 => Ty.beq e1 e2 && l1 == l2
  | .slice e1, .slice e2 => Ty.beq e1 e2
  | .genericAny n1, .genericAny n2 => n1 == n2
  | .genericRestricted c1, .genericRestricted c2 => Ty.beqList c1 c2
  | .func a1 r1, .func a2 r2 => Ty.beqList a1 a2 && Ty.beq r1 r2
  | .struct n1 m1, .struct n2 m2 => n1 == n2 && Ty.beqNamed m1 m2
  | .sum n1 c1, .sum n2 c2 => n1 == n2 && Ty.beqNamed c1 c2
  | .enum n1 c1, .enum n2 c2 => n1 == n2 && c1 == c2
  | .optional a, .optional b => Ty.beq a b
  | .interface n1 a1, .interface n2 a2 => n1 == n2 && Ty.beqList a1 a2
  | _, _ => false

/-- Elementwise `Ty.beq` on lists (equal lengths required). -/
def Ty.beqList : List Ty → List Ty → Bool
  | [], [] => true
  | x :: xs, y :: ys => Ty.beq x y && Ty.beqList xs ys
  | _, _ => false

/-- Elementwise equality on (name, type) pairs. -/
def Ty.beqNamed : List (String × Ty) → List (String × Ty) → Bool
  | [], [] => true
  | x :: xs, y :: ys => x.1 == y.1 && Ty.beq x.2 y.2 && Ty.beqNamed xs ys
  | _, _ => false

end

instance : BEq Ty := ⟨Ty.beq⟩

mutual

/-- `Type::is_generic` (src/src/ast/types.rs lines 322-337).  Note that the
source does not descend into `Optional`: it falls into the catch-all and
reports `false`. -/
def Ty.is_generic : Ty → Bool
  | .genericAny _ => true
  | .genericRestricted _ => true
  | .array et _ => et.is_generic
  | .slice et => et.is_generic
  | .func args ret => ret.is_generic || Ty.anyGeneric args
  | .struct _ members => Ty.anyGenericNamed members
  | .sum _ cases => Ty.anyGenericNamed cases
  | .unresolved _ args => Ty.anyGeneric args
  | .pointer inner => inner.is_generic
  | .interface _ gargs => !gargs.isEmpty
  | _ => false

/-- `args.iter().any(|a| a.is_generic())`. -/
def Ty.anyGeneric : List Ty → Bool
  | [] => false
  | t :: ts => t.is_generic || Ty.anyGeneric ts

/-- `members.iter().any(|m| m.typ.is_generic())`. -/
def Ty.anyGenericNamed : List (String × Ty) → Bool
  | [] => false
  | m :: ms => m.2.is_generic || Ty.anyGenericNamed ms

end

/-- `Type::is_optional_of` (src/src/ast/types.rs lines 376-383). -/
def Ty.is_optional_of (self other : Ty) : Bool :=
  match self with
  | .optional inner => inner == other
  | _ => false

/-- `Type::is_numeric` (src/src/ast/types.rs lines 339-346). -/
def Ty.is_numeric : Ty → Bool
  | .int _ => true
  | .uint _ => true
  | .float _ => true
  | _ => false

mutual

/-- `is_instantiation_of` (src/src/passes/typechecker.rs lines 436-465).
The function is structural over the type grammar; it is embedded over the
in-source type model of src/src/ast/types.rs, whose `is_generic` it calls.
Rust's `zip` truncates to the shorter list, which `instZip`/`instZipNamed`
reproduce: only the common prefix is compared. -/
def is_instantiation_of (concrete_type generic_type : Ty) : Bool :=
  if !generic_type.is_generic then concrete_type == generic_type
  else
    match concrete_type, generic_type with
    | .array a _, .array b _ => is_instantiation_of a b
    | _, .genericAny _ => true
    | _, .genericRestricted _ => true
    | .struct _ ma, .struct _ mb =>
        ma.length == mb.length && instZipNamed ma mb
    | .func aArgs aRet, .func bArgs bRet =>
        is_instantiation_of aRet bRet && instZip aArgs bArgs
    | .sum _ ca, .sum _ cb => instZipNamed ca cb
    | _, _ => false

/-- `a.iter().zip(b.iter()).all(|(ma, mb)| is_instantiation_of(ma, mb))`. -/
def instZip : List Ty → List Ty → Bool
  | x :: xs, y :: ys => is_instantiation_of x y && instZip xs ys
  | _, _ => true

/-- The member/case variant of `instZip`, comparing the `typ` fields. -/
def instZipNamed : List (String × Ty) → List (String × Ty) → Bool
  | x :: xs, y :: ys => is_instantiation_of x.2 y.2 && instZipNamed xs ys
  | _, _ => true

end

/-- Modelled from the spec: the expression constructors touched by the
conversion machinery of §3.3 ("Conversions (inserted by the checker):
ArrayToSlice, TypeCast(expr,to), OptionalToBool, ToOptional, NilOf(T)") and
§3.3's `Block{exprs[], typ}`; the defining `ast/expression.rs` is not among
the sources.  `nameRef` stands in for an arbitrary checked argument
expression; spans are omitted. -/
inductive Expr where
  | nameRef (name : String) (typ : Ty)
  | voidExpr
  | arrayToSlice (inner : Expr)
  | toOptional (inner : Expr) (optType : Ty)
  | optionalToBool (inner : Expr)
  | nilOf (innerType : Ty)
  | typeCast (inner : Expr) (toType : Ty)
  | block (expressions : List Expr) (typ : Ty)
deriving Repr

/-- `Type::convert(self, from_type, expr)` (src/src/ast/types.rs lines
239-286), the conversion-expression generator.  The Rust `match` arms with
failing guards fall through to later arms; since no later arm matches the
same scrutinee constructors, the fall-through of each guarded arm lands on
the final `None` arm, which the `else none` branches reproduce.  The source
order of the arms is: Array→Slice, X→Optional(X), Optional→Bool,
Nil→Optional, any→Void, Pointer↔*Void, Pointer→Bool. -/
def Ty.convert (self fromType : Ty) (expr : Expr) : Option Expr :=
  match self, fromType with
  | .slice se, .array ae _ =>
      if se == ae then some (.arrayToSlice expr) else none
  | .optional inner, f =>
      if inner == f then some (.toOptional expr (.optional inner))
      else if f.is_optional_of .unknown then some (.nilOf inner)
      else none
  | .bool, .optional _ => some (.optionalToBool expr)
  | .void, _ => some (.block [expr, .voidExpr] .void)
  | .pointer toTy, .pointer frTy =>
      if toTy == Ty.void then some (.typeCast expr (.pointer .void))
      else if frTy == Ty.void then some (.typeCast expr (.pointer toTy))
      else none
  | .bool, .pointer _ => some (.typeCast expr .bool)
  | _, _ => none

/-- The conversion chain in the order the spec sentence lists it:
Array→Slice, X→Optional(X), Optional(_)→Bool, Nil→Optional(T),
Pointer→*Void and *Void→Pointer, Pointer→Bool, and any→Void last.  Stated
from the spec's words, to be compared with `Ty.convert` above. -/
def convertClaimOrder (self fromType : Ty) (expr : Expr) : Option Expr :=
  match self, fromType with
  | .slice se, .array ae _ =>
      if se == ae then some (.arrayToSlice expr) else none
  | .optional inner, f =>
      if inner == f then some (.toOptional expr (.optional inner))
      else if f.is_optional_of .unknown then some (.nilOf inner)
      else none
  | .bool, .optional _ => some (.optionalToBool expr)
  | .pointer toTy, .pointer frTy =>
      if toTy == Ty.void then some (.typeCast expr (.pointer .void))
      else if frTy == Ty.void then some (.typeCast expr (.pointer toTy))
      else none
  | .bool, .pointer _ => some (.typeCast expr .bool)
  | .void, _ => some (.block [expr, .voidExpr] .void)
  | _, _ => none

/-- The argument-conversion step of `type_check_call`
(src/src/passes/typechecker.rs lines 210-231): an argument whose checked
type equals the substituted parameter type is kept; otherwise the first
applicable conversion replaces it; otherwise a Type error is raised.
(`typechecker.rs` pins the older type revision; the step is transplanted
onto the in-source `ast/types.rs` model that defines `convert`.) -/
def checkCallArg (expected actual : Ty) (arg : Expr) : Except Unit Expr :=
  if actual == expected then .ok arg
  else
    match expected.convert actual arg with
    | some conversion => .ok conversion
    | none => .error ()

end Rich

namespace TC

/-- The older `Type` revision that `src/src/passes/typechecker.rs`,
`src/src/passes/typeresolver.rs` and `src/src/llrep/*.rs` compile against
(unit `Int`/`Float`, `EmptyArray`, one-argument `array_type` and
`struct_type`).  Its defining file is not among the sources; the
constructor set is reconstructed from its uses in those files and the
spec's type grammar (§3.2).  `sum`/`enum` carry the optional case index
that `sum_type(cases, Some(idx))` / `enum_type(names, Some(idx))` pass in
`typeresolver.rs`; the typechecker revision's one-argument `sum_type`
corresponds to index `none`. -/
inductive CTy where
  | void
  | unknown
  | int
  | uint
  | float
  | char
  | bool
  | string
  | emptyArray
  | array (elementType : CTy)
  | slice (elementType : CTy)
  | generic (name : String)
  | func (args : List CTy) (returnType : CTy)
  | struct (members : List (String × CTy))
  | sum (cases : List (String × CTy)) (index : Option Nat)
  | enum (cases : List String) (index : Option Nat)
  | optional (inner : CTy)
  | pointer (inner : CTy)
  | unresolved (name : String)
deriving Repr

mutual

/-- Structural equality on `CTy` (the derived `PartialEq` `==` of the Rust
enum). -/
def CTy.beq : CTy → CTy → Bool
  | .void, .void => true
  | .unknown, .unknown => true
  | .int, .int => true
  | .uint, .uint => true
  | .float, .float => true
  | .char, .char => true
  | .bool, .bool => true
  | .string, .string => true
  | .emptyArray, .emptyArray => true
  | .array a, .array b => CTy.beq a b
  | .slice a, .slice b => CTy.beq a b
  | .generic a, .generic b => a == b
  | .func a1 r1, .func a2 r2 => CTy.beqList a1 a2 && CTy.beq r1 r2
  | .struct m1, .struct m2 => CTy.beqNamed m1 m2
  | .sum c1 i1, .sum c2 i2 => CTy.beqNamed c1 c2 && i1 == i2
  | .enum c1 i1, .enum c2 i2 => c1 == c2 && i1 == i2
  | .optional a, .optional b => CTy.beq a b
  | .pointer a, .pointer b => CTy.beq a b
  | .unresolved a, .unresolved b => a == b
  | _, _ => false

/-- Elementwise `CTy.beq`. -/
def CTy.beqList : List CTy → List CTy → Bool
  | [], [] => true
  | x :: xs, y :: ys => CTy.beq x y && CTy.beqList xs ys
  | _, _ => false

/-- Elementwise equality on (name, type) pairs. -/
def CTy.beqNamed : List (String × CTy) → List (String × CTy) → Bool
  | [], [] => true
  | x :: xs, y :: ys => x.1 == y.1 && CTy.beq x.2 y.2 && CTy.beqNamed xs ys
  | _, _ => false

end

instance : BEq CTy := ⟨CTy.beq⟩

/-- `is_numeric` on the checker revision (the in-source rich revision's
`is_numeric` restricted to the unit numeric constructors). -/
def CTy.is_numeric : CTy → Bool
  | .int => true
  | .uint => true
  | .float => true
  | _ => false

/-- Modelled from the spec: `is_integer`, used by the `Mod` arm of
`type_check_binary_op`; its defining type file is missing.  The integer
types of the grammar (§3.2) are `Int` and `UInt`. -/
def CTy.is_integer : CTy → Bool
  | .int => true
  | .uint => true
  | _ => false

/-- `is_bool`, used by `And`/`Or` and unary `Not`. -/
def CTy.is_bool : CTy → Bool
  | .bool => true
  | _ => false

mutual

/-- `is_generic` on the checker revision (the rich revision's `is_generic`
of src/src/ast/types.rs restricted to the reconstructed constructors;
`Optional` falls into the catch-all there, hence `false` here too). -/
def CTy.is_generic : CTy → Bool
  | .generic _ => true
  | .array et => et.is_generic
  | .slice et => et.is_generic
  | .func args ret => ret.is_generic || CTy.anyGeneric args
  | .struct members => CTy.anyGenericNamed members
  | .sum cases _ => CTy.anyGenericNamed cases
  | .pointer inner => inner.is_generic
  | _ => false

/-- `args.iter().any(|a| a.is_generic())`. -/
def CTy.anyGeneric : List CTy → Bool
  | [] => false
  | t :: ts => t.is_generic || CTy.anyGeneric ts

/-- `members.iter().any(|m| m.typ.is_generic())`. -/
def CTy.anyGenericNamed : List (String × CTy) → Bool
  | [] => false
  | m :: ms => m.2.is_generic || CTy.anyGenericNamed ms

end

/-- Modelled from the spec: the addition table of §4.2 ("Char+Char→Char,
Int+Int→Int, Float+Float→Float; other combinations fail"); the defining
`addition_type` of the missing type file is called by the `Add` arm of
`type_check_binary_op`. -/
def additionType : CTy → CTy → Option CTy
  | .char, .char => some .char
  | .int, .int => some .int
  | .float, .float => some .float
  | _, _ => none

/-- The binary operators matched by `type_check_binary_op`
(src/src/parser's `Operator`, reconstructed from its uses); `notOp` stands
for the remaining non-binary operators that fall into the
`InvalidBinaryOperator` arm. -/
inductive Oper where
  | add | sub | mul | div | mod
  | lessThan | greaterThan | lessThanEquals | greaterThanEquals
  | equalsOp | notEqualsOp | andOp | orOp | notOp
deriving DecidableEq, Repr

/-- The error kinds of `compileerror.rs` used by the embedded passes.
Spans and message strings are dropped except for the resolver's span
payload: errors are compared by `ErrorCode` kind and structured payload.
`unknownType` carries the name and expected type exactly as
`ErrorCode::UnknownType(name, typ)` does.  `outOfFuel` is an artefact of
the embedding marking exhaustion of the recursion fuel (the Rust checker
recurses unboundedly); every theorem is stated away from it. -/
inductive CErr where
  | typeError
  | invalidUnaryOperator
  | invalidBinaryOperator
  | unknownName (span : Nat) (name : String)
  | unknownType (name : String) (expected : CTy)
  | callingNonCallable
  | wrongArgumentCount
  | outOfFuel
deriving Repr

/-- `type_check_binary_op` (src/src/passes/typechecker.rs lines 48-119)
after its two recursive operand checks: given the already-checked operand
types, the operator dispatch.  The generic early-return (lines 53-55)
returns the left type without an error. -/
def type_check_binary_op (op : Oper) (left_type right_type : CTy) :
    Except CErr CTy :=
  if left_type.is_generic || right_type.is_generic then .ok left_type
  else
    match op with
    | .add =>
        match additionType left_type right_type with
        | some t => .ok t
        | none => .error .typeError
    | .sub | .mul | .div =>
        if !left_type.is_numeric || !right_type.is_numeric then
          .error .typeError
        else if !(left_type == right_type) then .error .typeError
        else .ok left_type
    | .lessThan | .greaterThan | .lessThanEquals | .greaterThanEquals =>
        if !left_type.is_numeric || !right_type.is_numeric then
          .error .typeError
        else if !(left_type == right_type) then .error .typeError
        else .ok .bool
    | .mod =>
        if !left_type.is_integer || !right_type.is_integer then
          .error .typeError
        else .ok .int
    | .equalsOp | .notEqualsOp =>
        if !(left_type == right_type) then .error .typeError
        else .ok .bool
    | .andOp | .orOp =>
        if !left_type.is_bool || !right_type.is_bool then .error .typeError
        else .ok .bool
    | .notOp => .error .invalidBinaryOperator

/-! ### Type resolver (src/src/passes/typeresolver.rs) -/

/-- Modelled from the spec: the symbol table of the `TypeCheckerContext`
("a populated symbol table mapping names → Types", §4.1); the context's
defining file is not among the sources.  An association list; `add` is an
insert-or-overwrite (the repeated re-registration of already-resolved
declarations on every resolver pass requires overwrite semantics). -/
def SymTab := List (String × CTy)

/-- `ctx.resolve_type(name)`: look the name up. -/
def SymTab.resolveType : SymTab → String → Option CTy
  | [], _ => none
  | (k, v) :: rest, name => if k == name then some v else SymTab.resolveType rest name

/-- `ctx.add(name, typ, ..)`: overwrite in place when the key is present,
otherwise prepend. -/
def SymTab.add : SymTab → String → CTy → SymTab
  | [], name, t => [(name, t)]
  | (k, v) :: rest, name, t =>
      if k == name then (k, t) :: rest else (k, v) :: SymTab.add rest name t

/-- `TypeResolved` (src/src/passes/typeresolver.rs lines 6-11). -/
inductive TypeResolvedFlag where
  | yes
  | no
deriving DecidableEq, Repr

/-- `ResolveMode` (src/src/passes/typeresolver.rs lines 13-18). -/
inductive ResolveMode where
  | lazyMode
  | forcedMode
deriving DecidableEq, Repr

/-- A struct-declaration member (`name`, `typ`, `span`); spans are plain
naturals. -/
structure SMember where
  name : String
  typ : CTy
  span : Nat
deriving Repr

/-- `StructDeclaration`: name, resolved type (`Unknown` until resolution),
members, span. -/
structure SStructDecl where
  name : String
  typ : CTy
  members : List SMember
  span : Nat
deriving Repr

/-- A sum-type declaration case: name, type (set by resolution), optional
struct payload (`c.data`), span. -/
structure SSumCase where
  name : String
  typ : CTy
  data : Option SStructDecl
  span : Nat
deriving Repr

/-- `SumTypeDeclaration`: name, resolved type, cases, span. -/
structure SSumDecl where
  name : String
  typ : CTy
  cases : List SSumCase
  span : Nat
deriving Repr

/-- `TypeDeclaration` (src/src/ast/mod.rs lines 47-53) restricted to the
two arms the resolver handles; the `Alias` arm panics (`NYI`) in the
source and is out of scope per the spec's design notes. -/
inductive TypeDecl where
  | structDecl (sd : SStructDecl)
  | sumDecl (sd : SSumDecl)
deriving Repr

/-- `resolve_type` (src/src/passes/typeresolver.rs lines 20-38): a type
that is not `Unresolved` counts as resolved; an `Unresolved` name is looked
up and replaced on success. -/
def resolve_type (ctx : SymTab) (typ : CTy) : CTy × TypeResolvedFlag :=
  match typ with
  | .unresolved name =>
      match ctx.resolveType name with
      | some t => (t, .yes)
      | none => (typ, .no)
  | _ => (typ, .yes)

/-- The rendered name in a resolver `UnknownName` diagnostic
(`format!("{}", m.typ)`; the failing type is always `Unresolved(name)`,
whose display form is the name itself). -/
def unresolvedName : CTy → String
  | .unresolved n => n
  | _ => ""

/-- The member loop of `resolve_struct_member_types` (lines 71-83): walk
the members, replacing each resolvable type in place; stop at the first
unresolvable member (`Lazy`: report `no`, keeping the partially updated
member list; `Forced`: raise `UnknownName` at that member's span). -/
def resolveMembers (ctx : SymTab) (mode : ResolveMode) :
    List SMember → Except CErr (List SMember × TypeResolvedFlag)
  | [] => .ok ([], .yes)
  | m :: rest =>
      match resolve_type ctx m.typ with
      | (t, flag) =>
          match flag with
          | .no =>
              match mode with
              | .lazyMode => .ok (m :: rest, .no)
              | .forcedMode =>
                  .error (.unknownName m.span (unresolvedName m.typ))
          | .yes =>
              match resolveMembers ctx mode rest with
              | .error e => .error e
              | .ok (rest2, flag2) => .ok ({ m with typ := t } :: rest2, flag2)

/-- `resolve_struct_member_types` (src/src/passes/typeresolver.rs lines
65-87): an already-resolved declaration is left alone; otherwise resolve
the members and, when all resolve, set the declaration's type to
`struct_type(member_types)`. -/
def resolve_struct_member_types (ctx : SymTab) (sd : SStructDecl)
    (mode : ResolveMode) : Except CErr (SStructDecl × TypeResolvedFlag) :=
  if !(sd.typ == CTy.unknown) then .ok (sd, .yes)
  else
    match resolveMembers ctx mode sd.members with
    | .error e => .error e
    | .ok (members2, .no) => .ok ({ sd with members := members2 }, .no)
    | .ok (members2, .yes) =>
        .ok ({ sd with
                members := members2,
                typ := .struct (members2.map (fun m => (m.name, m.typ))) },
             .yes)

/-- The case loop of `resolve_sum_case_types` (lines 95-113): a case with a
struct payload resolves the payload (propagating the partial update and
stopping at the first `no`); a case without a payload contributes the `Int`
sentinel.  Returns the updated cases and the accumulated
`sum_type_case(name, typ)` list. -/
def resolveSumCases (ctx : SymTab) (mode : ResolveMode) :
    List SSumCase →
    Except CErr (List SSumCase × List (String × CTy) × TypeResolvedFlag)
  | [] => .ok ([], [], .yes)
  | c :: rest =>
      match c.data with
      | some sd =>
          match resolve_struct_member_types ctx sd mode with
          | .error e => .error e
          | .ok (sd2, .no) => .ok ({ c with data := some sd2 } :: rest, [], .no)
          | .ok (sd2, .yes) =>
              match resolveSumCases ctx mode rest with
              | .error e => .error e
              | .ok (rest2, caseTypes, flag) =>
                  .ok ({ c with data := some sd2 } :: rest2,
                       (c.name, sd2.typ) :: caseTypes, flag)
      | none =>
          match resolveSumCases ctx mode rest with
          | .error e => .error e
          | .ok (rest2, caseTypes, flag) =>
              .ok (c :: rest2, (c.name, CTy.int) :: caseTypes, flag)

/-- The enum branch's case registration (lines 120-124): each case name is
added to the symbol table as `enum_type(case_names, Some(idx))`. -/
def addEnumCaseSyms (caseNames : List String) :
    SymTab → List SSumCase → Nat → SymTab
  | ctx, [], _ => ctx
  | ctx, c :: rest, idx =>
      addEnumCaseSyms caseNames
        (ctx.add c.name (.enum caseNames (some idx))) rest (idx + 1)

/-- The sum branch's case registration (lines 130-134): each case gets
`c.typ = sum_type(case_types, Some(idx))` and is added under its name. -/
def addSumCaseSyms (caseTypes : List (String × CTy)) :
    SymTab → List SSumCase → Nat → SymTab × List SSumCase
  | ctx, [], _ => (ctx, [])
  | ctx, c :: rest, idx =>
      let c2 := { c with typ := CTy.sum caseTypes (some idx) }
      let (ctx2, rest2) :=
        addSumCaseSyms caseTypes (ctx.add c.name c2.typ) rest (idx + 1)
      (ctx2, c2 :: rest2)

/-- `resolve_sum_case_types` (src/src/passes/typeresolver.rs lines 89-138).
When every case type is the `Int` sentinel the declaration becomes an
`Enum` (note the enum branch leaves the cases' `typ` fields alone and only
registers the symbols); otherwise it becomes a `Sum` and each case's `typ`
is set to the indexed sum type. -/
def resolve_sum_case_types (ctx : SymTab) (st : SSumDecl) (mode : ResolveMode) :
    Except CErr (SymTab × SSumDecl × TypeResolvedFlag) :=
  if !(st.typ == CTy.unknown) then .ok (ctx, st, .yes)
  else
    match resolveSumCases ctx mode st.cases with
    | .error e => .error e
    | .ok (cases2, _, .no) => .ok (ctx, { st with cases := cases2 }, .no)
    | .ok (cases2, caseTypes, .yes) =>
        if caseTypes.all (fun ct => ct.2 == CTy.int) then
          let caseNames := cases2.map (fun c => c.name)
          let st2 := { st with cases := cases2,
                               typ := CTy.enum caseNames none }
          let ctx1 := (ctx.add st.name st2.typ)
          .ok (addEnumCaseSyms caseNames ctx1 cases2 0, st2, .yes)
        else
          let st2typ := CTy.sum caseTypes none
          let ctx1 := ctx.add st.name st2typ
          let (ctx2, cases3) := addSumCaseSyms caseTypes ctx1 cases2 0
          .ok (ctx2, { st with cases := cases3, typ := st2typ }, .yes)

/-- `resolve_all_types` (src/src/passes/typeresolver.rs lines 140-166): one
pass over the declarations, counting those that report `Yes`; a resolved
struct declaration is (re-)registered under its name on every pass. -/
def resolveAllTypes : SymTab → List TypeDecl → ResolveMode →
    Except CErr (SymTab × List TypeDecl × Nat)
  | ctx, [], _ => .ok (ctx, [], 0)
  | ctx, .structDecl s :: rest, mode =>
      match resolve_struct_member_types ctx s mode with
      | .error e => .error e
      | .ok (s2, flag) =>
          let (ctx1, inc) :=
            match flag with
            | .yes => (ctx.add s2.name s2.typ, 1)
            | .no => (ctx, 0)
          match resolveAllTypes ctx1 rest mode with
          | .error e => .error e
          | .ok (ctx2, rest2, n) => .ok (ctx2, .structDecl s2 :: rest2, n + inc)
  | ctx, .sumDecl s :: rest, mode =>
      match resolve_sum_case_types ctx s mode with
      | .error e => .error e
      | .ok (ctx1, s2, flag) =>
          let inc := match flag with | .yes => 1 | .no => 0
          match resolveAllTypes ctx1 rest mode with
          | .error e => .error e
          | .ok (ctx2, rest2, n) => .ok (ctx2, .sumDecl s2 :: rest2, n + inc)

/-- The fix-point loop of `resolve_types` (src/src/passes/typeresolver.rs
lines 168-191), fuelled: `none` marks fuel exhaustion (the Rust loop is
unbounded; `declarations + 1` passes always suffice because a pass that
neither resolves everything nor matches the previous count strictly grows
the count, which is bounded by the number of declarations).  A pass
resolving everything ends the loop; a pass matching the previous count runs
exactly one `Forced` pass and stops. -/
def resolveTypesLoop : Nat → SymTab → List TypeDecl → Nat →
    Option (Except CErr (SymTab × List TypeDecl))
  | 0, _, _, _ => none
  | fuel + 1, ctx, decls, numResolved =>
      match resolveAllTypes ctx decls .lazyMode with
      | .error e => some (.error e)
      | .ok (ctx1, decls1, n) =>
          if n == decls1.length then some (.ok (ctx1, decls1))
          else if numResolved == n then
            match resolveAllTypes ctx1 decls1 .forcedMode with
            | .error e => some (.error e)
            | .ok (ctx2, decls2, _) => some (.ok (ctx2, decls2))
          else resolveTypesLoop fuel ctx1 decls1 n

/-- The type-declaration phase of `resolve_types`: the loop entered with
`num_resolved = 0` (the subsequent function-signature resolution is not
part of the embedded claims). -/
def resolve_types (ctx : SymTab) (decls : List TypeDecl) :
    Option (Except CErr (SymTab × List TypeDecl)) :=
  resolveTypesLoop (decls.length + 1) ctx decls 0

/-- "Resolved" for a declaration: its type is no longer `Unknown` (the
early-return test of both resolvers). -/
def TypeDecl.isResolved : TypeDecl → Bool
  | .structDecl sd => !(sd.typ == CTy.unknown)
  | .sumDecl sd => !(sd.typ == CTy.unknown)

/-- The first member of a declaration whose type is `Unresolved` with a
name absent from the symbol table — the "first unresolved occurrence"
within the declaration — together with its span and name. -/
def firstStuckMember (ctx : SymTab) : List SMember → Option (Nat × String)
  | [] => none
  | m :: rest =>
      match m.typ with
      | .unresolved n =>
          match ctx.resolveType n with
          | some _ => firstStuckMember ctx rest
          | none => some (m.span, n)
      | _ => firstStuckMember ctx rest

/-- The first unresolved occurrence among a sum declaration's cases: the
first case whose struct payload is still unresolved and contains a stuck
member. -/
def firstStuckCase (ctx : SymTab) : List SSumCase → Option (Nat × String)
  | [] => none
  | c :: rest =>
      match c.data with
      | some sd =>
          if !(sd.typ == CTy.unknown) then firstStuckCase ctx rest
          else
            match firstStuckMember ctx sd.members with
            | some sn => some sn
            | none => firstStuckCase ctx rest
      | none => firstStuckCase ctx rest

/-! ### LLIR lowering (src/src/llrep/mod.rs, src/src/llrep/llfunction.rs) -/

/-- Modelled from the spec: `pass_by_value` (§3.5: "primitives, pointer,
enum, func flow by copy"); the rich revision's `pass_by_value`
(src/src/ast/types.rs lines 432-446) lists Int, UInt, Float, Char, Bool,
Pointer, Enum, Func. -/
def CTy.pass_by_value : CTy → Bool
  | .int => true
  | .uint => true
  | .float => true
  | .char => true
  | .bool => true
  | .pointer _ => true
  | .enum _ _ => true
  | .func _ _ => true
  | _ => false

/-- Modelled from the spec: `allocate_on_heap` (§3.5: "All other types are
heap-allocated and reference-counted"); the defining type file is missing.
A type is heap-allocated exactly when it is not passed by value. -/
def CTy.allocate_on_heap (t : CTy) : Bool :=
  !t.pass_by_value

/-- `get_element_type` on the checker revision (the rich revision's version
restricted to the reconstructed constructors). -/
def CTy.get_element_type : CTy → Option CTy
  | .array et => some et
  | .slice et => some et
  | .string => some .char
  | .pointer inner => some inner
  | .optional inner => some inner
  | _ => none

/-- `LLVar` (src/src/llrep/llfunction.rs lines 7-31). -/
structure LLVar where
  name : String
  typ : CTy
deriving Repr

/-- `LLVar::new(idx, typ)`: the fresh temporary `$var{idx}`. -/
def LLVar.fresh (idx : Nat) (typ : CTy) : LLVar :=
  { name := "$var" ++ toString idx, typ := typ }

instance : BEq LLVar := ⟨fun a b => a.name == b.name && CTy.beq a.typ b.typ⟩

/-- Modelled from the spec: `LLLiteral` of the missing `llinstruction.rs`
(the literal forms emitted by `src/src/llrep/mod.rs`). -/
inductive LLLiteral where
  | intL (v : Nat)
  | floatL (repr : String)
  | boolL (b : Bool)
  | charL (c : Nat)
  | stringL (s : String)
  | arrayL (elements : List LLVar)
deriving Repr

/-- Modelled from the spec (§4.4 expression list) and the constructors used
by `src/src/llrep/mod.rs`: the expressions legal inside `Set`. -/
inductive LLExpr where
  | lit (l : LLLiteral)
  | binaryOp (op : Oper) (left right : LLVar)
  | unaryOp (op : Oper) (v : LLVar)
  | arrayHead (v : LLVar)
  | arrayTail (v : LLVar)
  | arrayLen (v : LLVar)
  | structMember (v : LLVar) (idx : Nat)
  | sumTypeIndex (v : LLVar)
  | sumTypeCase (idx : Nat)
  | sumTypeStruct (v : LLVar) (idx : Nat)
  | heapAlloc (t : CTy)
  | funcRef (name : String)
  | ref (v : LLVar)
  | call (name : String) (args : List LLVar)
deriving Repr

/-- Modelled from the spec (§4.4 instruction list): the `LLInstruction`
enum of the missing `llinstruction.rs`, restricted to the instructions the
lowerer emits (`Store`/`Load` are listed by the spec but never produced by
`src/src/llrep/mod.rs`). -/
inductive LLInstruction where
  | alloc (v : LLVar)
  | set (dst : LLVar) (e : LLExpr)
  | branch (bb : Nat)
  | branchIf (cond : LLVar) (onTrue onFalse : Nat)
  | ret (v : LLVar)
  | startScope
  | endScope
  | incRef (v : LLVar)
  | decRef (v : LLVar)
  | bind (name : String) (v : LLVar)
deriving Repr

/-- `Scope` (src/src/llrep/llfunction.rs lines 41-92): the named variables
it owns and the `DecRef` cleanup list in registration order. -/
structure LLScope where
  namedVars : List LLVar
  toDecRef : List LLVar
deriving Repr

/-- `Scope::add_named_var` (a HashMap insert keyed by name: overwrite in
place or append). -/
def LLScope.addNamedVar (s : LLScope) (var : LLVar) : LLScope :=
  let rec go : List LLVar → List LLVar
    | [] => [var]
    | v :: rest => if v.name == var.name then var :: rest else v :: go rest
  { s with namedVars := go s.namedVars }

/-- `Scope::get_named_var`. -/
def LLScope.getNamedVar (s : LLScope) (name : String) : Option LLVar :=
  s.namedVars.find? (fun v => v.name == name)

/-- `Scope::add_dec_ref_target` (lines 68-76): only a variable the scope
knows by name is accepted; it is pushed onto the cleanup list. -/
def LLScope.addDecRefTarget (s : LLScope) (v : LLVar) : LLScope × Bool :=
  match s.getNamedVar v.name with
  | none => (s, false)
  | some _ => ({ s with toDecRef := s.toDecRef ++ [v] }, true)

/-- `Scope::remove_dec_ref_target` (lines 78-83): `retain(|e| e != v)`. -/
def LLScope.removeDecRefTarget (s : LLScope) (v : LLVar) : LLScope :=
  { s with toDecRef := s.toDecRef.filter (fun e => !(e == v)) }

/-- `LLFunction` (src/src/llrep/llfunction.rs lines 126-138), with the
scope and destination stacks stored top-first (Rust pushes/pops at the
vector's end).  The signature and lambdas are irrelevant to the embedded
claims and omitted. -/
structure LLFunc where
  blocks : List (Nat × List LLInstruction)
  blockOrder : List Nat
  currentBB : Nat
  bbCounter : Nat
  varCounter : Nat
  scopes : List LLScope
  destinations : List (Option LLVar)
deriving Repr

/-- `self.blocks.get_mut(&idx).map(|bb| bb.instructions.push(inst))`: the
entry of the given block id receives the instruction. -/
def updateBlock : List (Nat × List LLInstruction) → Nat → LLInstruction →
    List (Nat × List LLInstruction)
  | [], _, _ => []
  | b :: rest, cur, inst =>
      if b.1 == cur then (b.1, b.2 ++ [inst]) :: rest
      else b :: updateBlock rest cur inst

/-- Append an instruction to the current basic block's list. -/
def LLFunc.emit (f : LLFunc) (inst : LLInstruction) : LLFunc :=
  { f with blocks := updateBlock f.blocks f.currentBB inst }

/-- `Scope::cleanup` (lines 85-91): emit `DecRef`s in reverse construction
order. -/
def LLFunc.cleanupScope (f : LLFunc) (s : LLScope) : LLFunc :=
  s.toDecRef.reverse.foldl (fun acc v => acc.emit (.decRef v)) f

/-- `LLFunction::pop_scope` (lines 219-227): pop, emit the cleanup
`DecRef`s, and emit `EndScope` only when a scope remains (not at function
exit). -/
def LLFunc.popScope (f : LLFunc) : LLFunc :=
  match f.scopes with
  | [] => f
  | s :: rest =>
      let f1 := LLFunc.cleanupScope { f with scopes := rest } s
      if rest.isEmpty then f1 else f1.emit .endScope

/-- `LLFunction::add` (lines 171-182): a `Return` first pops the current
scope; then the instruction goes into the current basic block. -/
def LLFunc.add (f : LLFunc) (inst : LLInstruction) : LLFunc :=
  let f1 := match inst with
            | .ret _ => f.popScope
            | _ => f
  f1.emit inst

/-- `LLFunction::push_scope` (lines 213-217). -/
def LLFunc.pushScope (f : LLFunc) : LLFunc :=
  ({ f with scopes := { namedVars := [], toDecRef := [] } :: f.scopes}).add .startScope

/-- `LLFunction::create_basic_block` (lines 184-191). -/
def LLFunc.createBasicBlock (f : LLFunc) : Nat × LLFunc :=
  let bbRef := f.bbCounter
  (bbRef, { f with bbCounter := bbRef + 1, blocks := f.blocks ++ [(bbRef, [])] })

/-- `LLFunction::add_basic_block` (lines 193-196). -/
def LLFunc.addBasicBlock (f : LLFunc) (bbRef : Nat) : LLFunc :=
  { f with blockOrder := f.blockOrder ++ [bbRef] }

/-- `LLFunction::set_current_bb` (lines 198-202; the bound assertion always
holds in the embedded flows and is dropped). -/
def LLFunc.setCurrentBB (f : LLFunc) (bbRef : Nat) : LLFunc :=
  { f with currentBB := bbRef }

/-- `LLFunction::add_named_var` (lines 247-251): into the top scope. -/
def LLFunc.addNamedVar (f : LLFunc) (var : LLVar) : LLFunc :=
  match f.scopes with
  | [] => f
  | s :: rest => { f with scopes := s.addNamedVar var :: rest }

/-- `LLFunction::get_named_var` (lines 253-262): innermost scope first. -/
def LLFunc.getNamedVar (f : LLFunc) (name : String) : Option LLVar :=
  let rec go : List LLScope → Option LLVar
    | [] => none
    | s :: rest =>
        match s.getNamedVar name with
        | some v => some v
        | none => go rest
  go f.scopes

/-- `LLFunction::new_var` (lines 204-211): a fresh `$var{n}` temporary,
registered in the top scope. -/
def LLFunc.newVar (f : LLFunc) (typ : CTy) : LLVar × LLFunc :=
  let v := LLVar.fresh f.varCounter typ
  (v, ({ f with varCounter := f.varCounter + 1 }).addNamedVar v)

/-- `LLFunction::add_dec_ref_target` (lines 264-271): the innermost scope
that knows the variable's name receives it. -/
def LLFunc.addDecRefTarget (f : LLFunc) (v : LLVar) : LLFunc :=
  let rec go : List LLScope → List LLScope
    | [] => []
    | s :: rest =>
        match s.addDecRefTarget v with
        | (s2, true) => s2 :: rest
        | (_, false) => s :: go rest
  { f with scopes := go f.scopes }

/-- `LLFunction::remove_dec_ref_target` (lines 273-277): only the top scope
is consulted. -/
def LLFunc.removeDecRefTarget (f : LLFunc) (v : LLVar) : LLFunc :=
  match f.scopes with
  | [] => f
  | s :: rest => { f with scopes := s.removeDecRefTarget v :: rest }

/-- `LLFunction::push_destination` / `pop_destination` / `get_destination`
(lines 229-245): the destination stack of optional targets. -/
def LLFunc.pushDestination (f : LLFunc) (var : Option LLVar) : LLFunc :=
  { f with destinations := var :: f.destinations }

/-- `pop_destination`. -/
def LLFunc.popDestination (f : LLFunc) : LLFunc :=
  { f with destinations := f.destinations.tail }

/-- `get_destination`: the top entry when it holds a variable. -/
def LLFunc.getDestination (f : LLFunc) : Option LLVar :=
  match f.destinations with
  | some var :: _ => some var
  | _ => none

/-- `stack_alloc` (src/src/llrep/mod.rs lines 599-615): a named variable is
registered and `Alloc`ed; an anonymous one is a fresh temporary. -/
def stack_alloc (f : LLFunc) (typ : CTy) (name : Option String) :
    LLVar × LLFunc :=
  match name with
  | some n =>
      let var : LLVar := { name := n, typ := typ }
      (var, (f.addNamedVar var).add (.alloc var))
  | none =>
      let (var, f1) := f.newVar typ
      (var, f1.add (.alloc var))

/-- `get_dst` (src/src/llrep/mod.rs lines 617-626).  The two `assert!`s —
the requested type is not `Unknown`, and a present destination has exactly
the requested type — are modelled as `none` (a lowering panic); only when
no destination is present is a fresh temporary stack-allocated. -/
def get_dst (f : LLFunc) (typ : CTy) : Option (LLVar × LLFunc) :=
  if typ == CTy.unknown then none
  else
    match f.getDestination with
    | some dst => if CTy.beq dst.typ typ then some (dst, f) else none
    | none => some (stack_alloc f typ none)

/-- `add_set` (src/src/llrep/mod.rs lines 29-32). -/
def add_set (f : LLFunc) (e : LLExpr) (dst : LLVar) : LLFunc :=
  f.add (.set dst e)

/-- `make_var` (src/src/llrep/mod.rs lines 34-39). -/
def make_var (f : LLFunc) (e : LLExpr) (typ : CTy) : LLVar × LLFunc :=
  let (var, f1) := f.newVar typ
  (var, add_set f1 e var)

/-- `make_lit` (src/src/llrep/mod.rs lines 46-51). -/
def make_lit (f : LLFunc) (l : LLLiteral) (typ : CTy) : LLVar × LLFunc :=
  let (var, f1) := f.newVar typ
  (var, add_set f1 (.lit l) var)

/-- `bind` (src/src/llrep/mod.rs lines 53-56). -/
def bindVar (f : LLFunc) (name : String) (var : LLVar) : LLFunc :=
  f.add (.bind name var)

/-- `array_pattern_match_to_llrep` (src/src/llrep/mod.rs lines 219-235):
in the *current* block, extract and `Bind` the head and the tail, then
compute the length guard and emit the `BranchIf`. -/
def array_pattern_match_to_llrep (f : LLFunc) (apHead apTail : String)
    (seq : LLVar) (matchCaseBB nextBB : Nat) : Option LLFunc :=
  match seq.typ.get_element_type with
  | none => none
  | some elemTy =>
      let (head, f1) := make_var f (.arrayHead seq) elemTy
      let f2 := bindVar f1 apHead head
      let (tail, f3) := make_var f2 (.arrayTail seq) seq.typ
      let f4 := bindVar f3 apTail tail
      let (length, f5) := make_var f4 (.arrayLen seq) CTy.int
      let (zero, f6) := make_lit f5 (.intL 0) CTy.int
      let (cond, f7) :=
        make_var f6 (.binaryOp .greaterThan length zero) CTy.bool
      some (f7.add (.branchIf cond matchCaseBB nextBB))

/-- The typed-AST expressions fed to the embedded lowering fragment: the
literal arms exercised by the match-arm claims. -/
inductive LExpr where
  | litInt (v : Nat)
  | litBool (b : Bool)
deriving Repr

/-- The expression lowering `expr_to_llrep` (src/src/llrep/mod.rs lines
455-597) restricted to the arms the embedded match-arm claims exercise
(integer and boolean literals, lines 485-489 and 505-509); `none` marks a
lowering panic from a failed `get_dst` assertion. -/
def exprToLLRep (f : LLFunc) : LExpr → Option (LLVar × LLFunc)
  | .litInt v =>
      match get_dst f CTy.int with
      | none => none
      | some (dst, f1) => some (dst, add_set f1 (.lit (.intL v)) dst)
  | .litBool b =>
      match get_dst f CTy.bool with
      | none => none
      | some (dst, f1) => some (dst, add_set f1 (.lit (.boolL b)) dst)

/-- `match_case_body_to_llrep` (src/src/llrep/mod.rs lines 206-217): move
to the case block, lower the body, `Branch` to the shared end block, and
continue in the next test block. -/
def match_case_body_to_llrep (f : LLFunc) (body : LExpr)
    (matchCaseBB matchEndBB nextBB : Nat) : Option LLFunc :=
  let f1 := f.setCurrentBB matchCaseBB
  match exprToLLRep f1 body with
  | none => none
  | some (_, f2) =>
      some ((f2.add (.branch matchEndBB)).setCurrentBB nextBB)

/-- `match_case_to_llrep` (src/src/llrep/mod.rs lines 283-379) for an
array-pattern arm (`Pattern::Array`, lines 342-354): allocate the case and
next blocks, lower the pattern with an empty destination, then the case
body. -/
def matchCaseArrayArmToLLRep (f : LLFunc) (apHead apTail : String)
    (body : LExpr) (target : LLVar) (matchEndBB : Nat) : Option LLFunc :=
  let (matchCaseBB, f1) := f.createBasicBlock
  let f2 := f1.addBasicBlock matchCaseBB
  let (nextBB, f3) := f2.createBasicBlock
  let f4 := f3.addBasicBlock nextBB
  match target.typ with
  | .array _ =>
      let f5 := f4.pushDestination none
      match array_pattern_match_to_llrep f5 apHead apTail target
              matchCaseBB nextBB with
      | none => none
      | some f6 =>
          let f7 := f6.popDestination
          match_case_body_to_llrep f7 body matchCaseBB matchEndBB nextBB
  | _ => none

/-- The tail of `func_to_llrep` (src/src/llrep/mod.rs lines 628-637): after
lowering the body into `var`, a heap-allocated result is removed from the
cleanup list, then the `Return` is added (which pops the final scope). -/
def funcReturnEmission (f : LLFunc) (var : LLVar) : LLFunc :=
  let f1 := if var.typ.allocate_on_heap then f.removeDecRefTarget var else f
  f1.add (.ret var)

/-- Observation helper: the instruction list of a basic block. -/
def lookupBlock : List (Nat × List LLInstruction) → Nat →
    Option (List LLInstruction)
  | [], _ => none
  | b :: rest, bb => if b.1 == bb then some b.2 else lookupBlock rest bb

/-- Observation helper: the instruction list of a basic block (empty when
the block is absent). -/
def blockInstrs (f : LLFunc) (bb : Nat) : List LLInstruction :=
  match lookupBlock f.blocks bb with
  | some l => l
  | none => []

/-! ### Type checker and inferencer (src/src/passes/typechecker.rs) -/

/-- `is_unknown` (the rich revision's version, src/src/ast/types.rs lines
348-355). -/
def CTy.is_unknown : CTy → Bool
  | .unknown => true
  | _ => false

/-- `is_convertible` on the checker revision (mirrored from the in-source
rich revision, src/src/ast/types.rs lines 288-296; the second arm compares
the optional's inner type against the whole destination type, verbatim from
the source). -/
def CTy.is_convertible (self dstType : CTy) : Bool :=
  match self, dstType with
  | .array ae, .slice se => CTy.beq ae se
  | _, .optional inner => CTy.beq inner (.optional inner)
  | _, _ => false

mutual

/-- `is_instantiation_of` (src/src/passes/typechecker.rs lines 436-465)
over the checker revision's type model (the same function as
`Rich.is_instantiation_of`; `type_check_name` calls it and is embedded over
this model). -/
def isInstantiationOfC (concrete_type generic_type : CTy) : Bool :=
  if !generic_type.is_generic then concrete_type == generic_type
  else
    match concrete_type, generic_type with
    | .array a, .array b => isInstantiationOfC a b
    | _, .generic _ => true
    | .struct ma, .struct mb =>
        ma.length == mb.length && instZipNamedC ma mb
    | .func aArgs aRet, .func bArgs bRet =>
        isInstantiationOfC aRet bRet && instZipC aArgs bArgs
    | .sum ca _, .sum cb _ => instZipNamedC ca cb
    | _, _ => false

/-- Truncating elementwise comparison (Rust `zip` + `all`). -/
def instZipC : List CTy → List CTy → Bool
  | x :: xs, y :: ys => isInstantiationOfC x y && instZipC xs ys
  | _, _ => true

/-- Truncating elementwise comparison on (name, type) pairs. -/
def instZipNamedC : List (String × CTy) → List (String × CTy) → Bool
  | x :: xs, y :: ys => isInstantiationOfC x.2 y.2 && instZipNamedC xs ys
  | _, _ => true

end

/-- The typed-AST expression subset the checker embedding covers: literals,
name references, calls, lets and lambdas, plus the conversion nodes
`Type::convert` can insert (`blockVoid` is the `Block{[expr, Void], Void}`
wrapper of the any→Void conversion).  Let bindings are
(name, initializer, typ) triples; spans are omitted. -/
inductive CExpr where
  | intLit (v : Nat)
  | boolLit (b : Bool)
  | nameRef (name : String) (typ : CTy)
  | callE (callee : String) (args : List CExpr)
      (genericArgs : List (String × CTy)) (returnType : CTy)
  | letE (bindings : List (String × CExpr × CTy)) (body : CExpr) (typ : CTy)
  | lambdaE (args : List (String × CTy)) (retTy : CTy) (body : CExpr)
  | arrayToSliceE (inner : CExpr)
  | toOptionalE (inner : CExpr) (optType : CTy)
  | optionalToBoolE (inner : CExpr)
  | nilOfE (innerType : CTy)
  | typeCastE (inner : CExpr) (toType : CTy)
  | blockVoidE (inner : CExpr)
deriving Repr

/-- `Type::convert` on the checker revision (that revision's copy is
missing; mirrored arm for arm from the in-source rich revision,
src/src/ast/types.rs lines 239-286, which the spec adopts). -/
def CTy.convert (self fromType : CTy) (expr : CExpr) : Option CExpr :=
  match self, fromType with
  | .slice se, .array ae =>
      if se == ae then some (.arrayToSliceE expr) else none
  | .optional inner, f =>
      if inner == f then some (.toOptionalE expr (.optional inner))
      else if (match f with
               | .optional i2 => i2 == CTy.unknown
               | _ => false) then some (.nilOfE inner)
      else none
  | .bool, .optional _ => some (.optionalToBoolE expr)
  | .void, _ => some (.blockVoidE expr)
  | .pointer t2, .pointer fr =>
      if t2 == CTy.void then some (.typeCastE expr (.pointer .void))
      else if fr == CTy.void then some (.typeCastE expr (.pointer t2))
      else none
  | .bool, .pointer _ => some (.typeCastE expr .bool)
  | _, _ => none

/-- Modelled from the spec: the `TypeCheckerContext` symbol stack (§4.2 "a
lexically-scoped symbol stack (push on let/lambda/...) mapping names →
Types"); its defining file is not among the sources.  Frames are stored
top-first. -/
def Ctx := List (List (String × CTy))

/-- `ctx.push_stack()`. -/
def Ctx.pushStack (c : Ctx) : Ctx := [] :: c

/-- `ctx.pop_stack()`. -/
def Ctx.popStack : Ctx → Ctx
  | [] => []
  | _ :: rest => rest

/-- Insert-or-overwrite into one frame. -/
def frameAdd : List (String × CTy) → String → CTy → List (String × CTy)
  | [], name, t => [(name, t)]
  | (k, v) :: rest, name, t =>
      if k == name then (k, t) :: rest else (k, v) :: frameAdd rest name t

/-- `ctx.add(name, typ, ..)`: into the innermost frame (modelled as never
failing). -/
def Ctx.add : Ctx → String → CTy → Ctx
  | [], name, t => [[(name, t)]]
  | f :: rest, name, t => frameAdd f name t :: rest

/-- Lookup in one frame. -/
def frameLookup : List (String × CTy) → String → Option CTy
  | [], _ => none
  | (k, v) :: rest, name => if k == name then some v else frameLookup rest name

/-- `ctx.resolve_type(name)`: innermost frame first. -/
def Ctx.resolveType : Ctx → String → Option CTy
  | [], _ => none
  | f :: rest, name =>
      match frameLookup f name with
      | some t => some t
      | none => Ctx.resolveType rest name

/-- `ctx.update(name, typ)`: overwrite the innermost occurrence (used by
the `let` retry to record the re-inferred binding type). -/
def Ctx.update : Ctx → String → CTy → Ctx
  | [], _, _ => []
  | f :: rest, name, t =>
      if (frameLookup f name).isSome then frameAdd f name t :: rest
      else f :: Ctx.update rest name t

/-- Association lookup in a generic-argument map. -/
def lookupGeneric (m : List (String × CTy)) (name : String) : Option CTy :=
  match m.find? (fun p => p.1 == name) with
  | some p => some p.2
  | none => none

mutual

/-- Modelled from the spec: `GenericMapping::substitute` (§4.3's
generic-mapper, "structural substitution over Types"; `genericmapper.rs` is
not among the sources).  Bound generic names are replaced; all other
constructors are mapped structurally. -/
def substituteTy (m : List (String × CTy)) : CTy → CTy
  | .generic name =>
      match lookupGeneric m name with
      | some t => t
      | none => .generic name
  | .array e => .array (substituteTy m e)
  | .slice e => .slice (substituteTy m e)
  | .optional e => .optional (substituteTy m e)
  | .pointer e => .pointer (substituteTy m e)
  | .func args ret => .func (substituteTyList m args) (substituteTy m ret)
  | .struct members => .struct (substituteTyNamed m members)
  | .sum cases idx => .sum (substituteTyNamed m cases) idx
  | t => t

/-- `substituteTy` over a list of types. -/
def substituteTyList (m : List (String × CTy)) : List CTy → List CTy
  | [] => []
  | t :: ts => substituteTy m t :: substituteTyList m ts

/-- `substituteTy` over (name, type) pairs. -/
def substituteTyNamed (m : List (String × CTy)) :
    List (String × CTy) → List (String × CTy)
  | [] => []
  | p :: ps => (p.1, substituteTy m p.2) :: substituteTyNamed m ps

end

mutual

/-- Modelled from the spec: `fill_in_generics` (§4.2 "matching a concrete
type against a generic pattern proceeds structurally: `Array(a)` against
`Array(b)` recurses; `Generic(name)` unifies with any concrete type,
binding name→type in `generic_args`; conflicting bindings raise Type
error"); `genericmapper.rs` is not among the sources.  The first argument
is the concrete (argument) type, the second the generic pattern. -/
def fillInGenerics (concrete pattern : CTy)
    (m : List (String × CTy)) : Except CErr (List (String × CTy)) :=
  match pattern with
  | .generic name =>
      match lookupGeneric m name with
      | some t => if t == concrete then .ok m else .error .typeError
      | none => .ok ((name, concrete) :: m)
  | .array pe =>
      match concrete with
      | .array ce => fillInGenerics ce pe m
      | _ => .error .typeError
  | .slice pe =>
      match concrete with
      | .slice ce => fillInGenerics ce pe m
      | _ => .error .typeError
  | .optional pe =>
      match concrete with
      | .optional ce => fillInGenerics ce pe m
      | _ => .error .typeError
  | .pointer pe =>
      match concrete with
      | .pointer ce => fillInGenerics ce pe m
      | _ => .error .typeError
  | .func pArgs pRet =>
      match concrete with
      | .func cArgs cRet =>
          match fillInGenerics cRet pRet m with
          | .error e => .error e
          | .ok m1 => fillInList cArgs pArgs m1
      | _ => .error .typeError
  | .struct pMembers =>
      match concrete with
      | .struct cMembers => fillInNamed cMembers pMembers m
      | _ => .error .typeError
  | .sum pCases _ =>
      match concrete with
      | .sum cCases _ => fillInNamed cCases pCases m
      | _ => .error .typeError
  | p => if concrete == p then .ok m else .error .typeError
termination_by sizeOf pattern

/-- `fillInGenerics` over lists (a length mismatch is a Type error). -/
def fillInList (concrete pattern : List CTy)
    (m : List (String × CTy)) : Except CErr (List (String × CTy)) :=
  match concrete, pattern with
  | [], [] => .ok m
  | c :: cs, p :: ps =>
      match fillInGenerics c p m with
      | .error e => .error e
      | .ok m1 => fillInList cs ps m1
  | _, _ => .error .typeError
termination_by sizeOf pattern

/-- `fillInGenerics` over (name, type) pairs. -/
def fillInNamed (concrete pattern : List (String × CTy))
    (m : List (String × CTy)) : Except CErr (List (String × CTy)) :=
  match concrete, pattern with
  | [], [] => .ok m
  | (_, cTyp) :: cs, (_, pTyp) :: ps =>
      match fillInGenerics cTyp pTyp m with
      | .error e => .error e
      | .ok m1 => fillInNamed cs ps m1
  | _, _ => .error .typeError
termination_by sizeOf pattern

end

/-- Modelled from the spec: a lambda is generic while its parameter types
are not yet concrete (§4.2 "without a hint and generic, defer until a
call-site provides one"; `Lambda::is_generic` lives in the missing
`ast/lambda.rs`). -/
def lambdaIsGeneric (args : List (String × CTy)) : Bool :=
  args.any (fun a => a.2.is_generic)

/-- `type_check_name` (src/src/passes/typechecker.rs lines 467-508).
Returns the (possibly mutated) `NameRef` node; the wildcard has type
`Unknown`; a hinted name resolving to `Unknown` raises the structured
`UnknownType(name, hint)` signal.  Spans are dropped, so the
`unknown_name` span payload is 0. -/
def tcName (ctx : Ctx) (name : String) (typ : CTy) (hint : Option CTy) :
    Ctx × CExpr × Except CErr CTy :=
  if name == "_" then (ctx, .nameRef name typ, .ok .unknown)
  else if !typ.is_unknown && !typ.is_generic then
    (ctx, .nameRef name typ, .ok typ)
  else
    match ctx.resolveType name with
    | none => (ctx, .nameRef name typ, .error (.unknownName 0 name))
    | some resolvedType =>
        match hint with
        | some t =>
            if resolvedType == CTy.unknown then
              (ctx, .nameRef name typ, .error (.unknownType name t))
            else if resolvedType == t then
              (ctx, .nameRef name resolvedType, .ok resolvedType)
            else if !resolvedType.is_generic && !t.is_generic &&
                    !(resolvedType.is_convertible t) then
              (ctx, .nameRef name typ, .error .typeError)
            else if resolvedType.is_generic && !t.is_generic then
              if !(isInstantiationOfC t resolvedType) then
                (ctx, .nameRef name typ, .error .typeError)
              else (ctx, .nameRef name t, .ok t)
            else (ctx, .nameRef name resolvedType, .ok resolvedType)
        | none => (ctx, .nameRef name resolvedType, .ok resolvedType)

/-- The conversion pass of `type_check_call` (lines 210-231): argument
types equal to the substituted parameter type pass; otherwise the first
applicable conversion node replaces the argument; otherwise the Type error
aborts, leaving the remaining arguments untouched. -/
def tcConvertArgs (gargs : List (String × CTy)) :
    List CExpr → List CTy → List CTy → List CExpr × Except CErr Unit
  | [], _, _ => ([], .ok ())
  | a :: restA, t :: restT, e0 :: restE =>
      let expected := substituteTy gargs e0
      if t == expected then
        let (rest, r) := tcConvertArgs gargs restA restT restE
        (a :: rest, r)
      else
        match CTy.convert expected t a with
        | some conversion =>
            let (rest, r) := tcConvertArgs gargs restA restT restE
            (conversion :: rest, r)
        | none => (a :: restA, .error .typeError)
  | restA, _, _ => (restA, .ok ())

mutual

/-- `type_check_expression` (src/src/passes/typechecker.rs lines 726-751)
restricted to the embedded expression subset, fuelled for termination (the
conversion nodes are never produced by the parser and are not re-checked in
the embedded flows; they fall into a Type error).  Returns the mutated
context, the mutated expression, and the result type. -/
def check : Nat → Ctx → CExpr → Option CTy → Ctx × CExpr × Except CErr CTy
  | 0, ctx, e, _ => (ctx, e, .error .outOfFuel)
  | fuel + 1, ctx, e, hint =>
      match e with
      | .intLit _ => (ctx, e, .ok CTy.int)
      | .boolLit _ => (ctx, e, .ok CTy.bool)
      | .nameRef n t => tcName ctx n t hint
      | .callE callee args gargs rt => tcCall fuel ctx callee args gargs rt
      | .letE bs body t => tcLet fuel ctx bs body t
      | .lambdaE args rt body => tcLambda fuel ctx args rt body hint
      | other => (ctx, other, .error .typeError)

/-- `type_check_call` (src/src/passes/typechecker.rs lines 199-244): callee
lookup, arity check, the generic-argument fix-point, the conversion pass,
and the (possibly substituted) return type.  (Each helper consumes a unit
of fuel, so that the mutual recursion is structural on the fuel.) -/
def tcCall (fuel : Nat) (ctx : Ctx) (callee : String) (args : List CExpr)
    (gargs : List (String × CTy)) (rt : CTy) :
    Ctx × CExpr × Except CErr CTy :=
  match fuel with
  | 0 => (ctx, .callE callee args gargs rt, .error .outOfFuel)
  | fuel + 1 =>
  match ctx.resolveType callee with
  | none => (ctx, .callE callee args gargs rt, .error (.unknownName 0 callee))
  | some ft =>
      match ft with
      | .func ftArgs ftRet =>
          if !(ftArgs.length == args.length) then
            (ctx, .callE callee args gargs rt, .error .typeError)
          else
            match tcResolveLoop fuel ctx args ftArgs gargs gargs.length with
            | (ctx1, args1, gargs1, .error e) =>
                (ctx1, .callE callee args1 gargs1 rt, .error e)
            | (ctx1, args1, gargs1, .ok argTypes) =>
                match tcConvertArgs gargs1 args1 argTypes ftArgs with
                | (args2, .error e) =>
                    (ctx1, .callE callee args2 gargs1 rt, .error e)
                | (args2, .ok ()) =>
                    let rt2 := if ftRet.is_generic
                               then substituteTy gargs1 ftRet else ftRet
                    (ctx1, .callE callee args2 gargs1 rt2, .ok rt2)
      | _ => (ctx, .callE callee args gargs rt, .error .callingNonCallable)

/-- The `loop` of `resolve_generic_args_in_call` (lines 170-196): repeat
the argument pass until the generic-argument map stops growing. -/
def tcResolveLoop (fuel : Nat) (ctx : Ctx) (args : List CExpr)
    (ftArgs : List CTy) (gargs : List (String × CTy)) (count : Nat) :
    Ctx × List CExpr × List (String × CTy) × Except CErr (List CTy) :=
  match fuel with
  | 0 => (ctx, args, gargs, .error .outOfFuel)
  | fuel + 1 =>
      match tcCallArgsFold fuel ctx args ftArgs gargs with
      | (ctx1, args1, gargs1, .error e) => (ctx1, args1, gargs1, .error e)
      | (ctx1, args1, gargs1, .ok argTypes) =>
          if gargs1.length == count then (ctx1, args1, gargs1, .ok argTypes)
          else tcResolveLoop fuel ctx1 args1 ftArgs gargs1 gargs1.length

/-- One argument pass of `resolve_generic_args_in_call` (lines 177-187):
check each argument against the substituted parameter type and, when the
parameter is generic, unify via `fill_in_generics`. -/
def tcCallArgsFold (fuel : Nat) (ctx : Ctx) (args : List CExpr)
    (ftArgs : List CTy) (gargs : List (String × CTy)) :
    Ctx × List CExpr × List (String × CTy) × Except CErr (List CTy) :=
  match fuel with
  | 0 => (ctx, args, gargs, .error .outOfFuel)
  | fuel + 1 =>
      match args, ftArgs with
      | [], _ => (ctx, [], gargs, .ok [])
      | a :: restA, e0 :: restE =>
          let expected := substituteTy gargs e0
          match check fuel ctx a (some expected) with
          | (ctx1, a1, .error e) => (ctx1, a1 :: restA, gargs, .error e)
          | (ctx1, a1, .ok t) =>
              let t1 := substituteTy gargs t
              match (if expected.is_generic
                     then fillInGenerics t1 expected gargs
                     else .ok gargs) with
              | .error e => (ctx1, a1 :: restA, gargs, .error e)
              | .ok gargs1 =>
                  match tcCallArgsFold fuel ctx1 restA restE gargs1 with
                  | (ctx2, restA2, gargs2, .error e) =>
                      (ctx2, a1 :: restA2, gargs2, .error e)
                  | (ctx2, restA2, gargs2, .ok ts) =>
                      (ctx2, a1 :: restA2, gargs2, .ok (t1 :: ts))
      | restA, [] => (ctx, restA, gargs, .ok [])

/-- `type_check_lambda_body` (src/src/passes/typechecker.rs lines
396-410): push a frame, add the parameters, check the body, pop, set the
return type; the resulting type is the signature type
`Func(args, return_type)`.  A failing body check early-returns without
popping, as the Rust `try!` does. -/
def tcLambdaBody (fuel : Nat) (ctx : Ctx) (args : List (String × CTy))
    (rt : CTy) (body : CExpr) : Ctx × CExpr × Except CErr CTy :=
  match fuel with
  | 0 => (ctx, .lambdaE args rt body, .error .outOfFuel)
  | fuel + 1 =>
  let ctx1 := args.foldl (fun c a => c.add a.1 a.2) ctx.pushStack
  match check fuel ctx1 body none with
  | (ctx2, body1, .error e) => (ctx2, .lambdaE args rt body1, .error e)
  | (ctx2, body1, .ok bodyTy) =>
      (ctx2.popStack, .lambdaE args bodyTy body1,
       .ok (CTy.func (args.map (fun a => a.2)) bodyTy))

/-- `type_check_lambda` (src/src/passes/typechecker.rs lines 412-434).
With a hint: apply the hinted `Func` type to the signature (modelled from
the spec's "with a Func type hint, instantiate parameter types from the
hint"; `Lambda::apply_type` lives in the missing `ast/lambda.rs`), check
the body, and require the inferred type to equal the hint.  Without a
hint: a generic lambda defers with type `Unknown`. -/
def tcLambda (fuel : Nat) (ctx : Ctx) (args : List (String × CTy))
    (rt : CTy) (body : CExpr) (hint : Option CTy) :
    Ctx × CExpr × Except CErr CTy :=
  match fuel with
  | 0 => (ctx, .lambdaE args rt body, .error .outOfFuel)
  | fuel + 1 =>
  match hint with
  | some typ =>
      match typ with
      | .func hintArgs hintRet =>
          if !(hintArgs.length == args.length) then
            (ctx, .lambdaE args rt body, .error .typeError)
          else
            let args1 := (args.zip hintArgs).map (fun p => (p.1.1, p.2))
            match tcLambdaBody fuel ctx args1 hintRet body with
            | (ctx1, lam1, .error e) => (ctx1, lam1, .error e)
            | (ctx1, lam1, .ok infered) =>
                if !(infered == typ) then (ctx1, lam1, .error .typeError)
                else (ctx1, lam1, .ok infered)
      | _ => (ctx, .lambdaE args rt body, .error .typeError)
  | none =>
      if lambdaIsGeneric args then (ctx, .lambdaE args rt body, .ok .unknown)
      else tcLambdaBody fuel ctx args rt body

/-- The binding phase of `type_check_let` (lines 512-517): check each
initializer without a hint, record the inferred type on the binding, and
add it to the (already pushed) top frame.  A failing initializer
early-returns with the bindings checked so far. -/
def tcLetBindings (fuel : Nat) (ctx : Ctx)
    (bs : List (String × CExpr × CTy)) :
    Ctx × List (String × CExpr × CTy) × Except CErr Unit :=
  match fuel with
  | 0 => (ctx, bs, .error .outOfFuel)
  | fuel + 1 =>
  match bs with
  | [] => (ctx, [], .ok ())
  | (name, init, typ0) :: rest =>
      match check fuel ctx init none with
      | (ctx1, init1, .error e) =>
          (ctx1, (name, init1, typ0) :: rest, .error e)
      | (ctx1, init1, .ok t) =>
          match tcLetBindings fuel (ctx1.add name t) rest with
          | (ctx2, rest1, r) => (ctx2, (name, init1, t) :: rest1, r)

/-- The `UnknownType` retry of `type_check_let` (lines 522-535): find the
first binding carrying the unknown name, re-check its initializer with the
expected type as hint, update the recorded type, and check the body once
more; the successful path falls through to the `pop_stack`. -/
def tcLetRetry (fuel : Nat) (ctx : Ctx)
    (bs : List (String × CExpr × CTy)) (body : CExpr) (name : String)
    (expected : CTy) (lt : CTy) : Ctx × CExpr × Except CErr CTy :=
  match fuel with
  | 0 => (ctx, .letE bs body lt, .error .outOfFuel)
  | fuel + 1 =>
  match bs with
  | [] =>
      (ctx, .letE [] body lt, .error (.unknownType name expected))
  | b :: rest =>
      if b.1 == name then
        match check fuel ctx b.2.1 (some expected) with
        | (ctx1, init1, .error e) =>
            (ctx1, .letE ((b.1, init1, b.2.2) :: rest) body lt, .error e)
        | (ctx1, init1, .ok bt) =>
            let ctx2 := ctx1.update b.1 bt
            match check fuel ctx2 body none with
            | (ctx3, body1, .error e) =>
                (ctx3, .letE ((b.1, init1, bt) :: rest) body1 lt, .error e)
            | (ctx3, body1, .ok t2) =>
                (ctx3.popStack, .letE ((b.1, init1, bt) :: rest) body1 t2,
                 .ok t2)
      else
        match tcLetRetry fuel ctx rest body name expected lt with
        | (ctx1, .letE rest1 body1 t1, r) =>
            (ctx1, .letE (b :: rest1) body1 t1, r)
        | other => other

/-- `type_check_let` (src/src/passes/typechecker.rs lines 510-551): push a
frame, check the bindings, check the body; on an `UnknownType(name,
expected)` error whose name matches a binding, run the retry; any other
error — and an `UnknownType` matching no binding — is returned unchanged.
Only the successful paths pop the frame (the Rust early returns skip
`pop_stack`). -/
def tcLet (fuel : Nat) (ctx : Ctx) (bindings : List (String × CExpr × CTy))
    (body : CExpr) (ltyp : CTy) : Ctx × CExpr × Except CErr CTy :=
  match fuel with
  | 0 => (ctx, .letE bindings body ltyp, .error .outOfFuel)
  | fuel + 1 =>
  match tcLetBindings fuel ctx.pushStack bindings with
  | (ctx1, bs1, .error e) => (ctx1, .letE bs1 body ltyp, .error e)
  | (ctx1, bs1, .ok ()) =>
      match check fuel ctx1 body none with
      | (ctx2, body1, .ok t) => (ctx2.popStack, .letE bs1 body1 t, .ok t)
      | (ctx2, body1, .error cr) =>
          match cr with
          | .unknownType name expected =>
              if (bs1.find? (fun b => b.1 == name)).isSome then
                tcLetRetry fuel ctx2 bs1 body1 name expected ltyp
              else (ctx2, .letE bs1 body1 ltyp, .error (.unknownType name expected))
          | e => (ctx2, .letE bs1 body1 ltyp, .error e)

end

end TC

namespace Rich

/-! ### Imports (src/src/ast/import.rs) -/

/-- `SymbolType` (src/src/ast/import.rs lines 38-44). -/
inductive SymbolType where
  | normal
  | global
  | external
deriving DecidableEq, Repr

/-- `Symbol` (src/src/ast/import.rs lines 47-55); the span is dropped. -/
structure Symbol where
  name : String
  typ : Ty
  mutable_ : Bool
  symbolType : SymbolType
deriving Repr

/-- `Import` (src/src/ast/import.rs lines 71-79): the module's namespace,
its own symbols, and the symbols it itself imported.  The HashMaps are
association lists; `generics` is not consulted by `resolve` and omitted. -/
structure Import where
  nsName : String
  symbols : List (String × Symbol)
  importedSymbols : List (String × Symbol)
deriving Repr

/-- `HashMap::get` on a symbol map. -/
def lookupSymbol (m : List (String × Symbol)) (key : String) : Option Symbol :=
  match m.find? (fun p => p.1 == key) with
  | some p => some p.2
  | none => none

/-- The inner closure of `Import::resolve` (lines 95-105): first the plain
name, then the namespace-qualified `namespace::name`. -/
def resolveIn (nsName : String) (symbols : List (String × Symbol))
    (name : String) : Option Symbol :=
  match lookupSymbol symbols name with
  | some s => some s
  | none => lookupSymbol symbols (nsName ++ "::" ++ name)

/-- `Import::resolve` (src/src/ast/import.rs lines 93-114): the module's
own symbols are consulted first (plain, then namespaced); the imported
symbols are consulted, in the same two-step order, only when
`allow_imported_symbols` is set and the own lookup failed. -/
def Import.resolve (imp : Import) (name : String)
    (allowImportedSymbols : Bool) : Option Symbol :=
  match resolveIn imp.nsName imp.symbols name with
  | some s => some s
  | none =>
      if allowImportedSymbols then resolveIn imp.nsName imp.importedSymbols name
      else none

end Rich

/-! ## Shared lemmas -/

namespace Rich

mutual

/-- `Ty.beq` is reflexive. -/
theorem Ty.beq_refl : (t : Ty) → Ty.beq t t = true
  | .void => rfl
  | .unknown => rfl
  | .int a => beq_self_eq_true a
  | .uint a => beq_self_eq_true a
  | .float a => beq_self_eq_true a
  | .char => rfl
  | .bool => rfl
  | .string => rfl
  | .selfType => rfl
  | .pointer a => Ty.beq_refl a
  | .unresolved n args => by
      show (n == n && Ty.beqList args args) = true
      rw [beq_self_eq_true, Ty.beqList_refl args]; rfl
  | .array e l => by
      show (Ty.beq e e && l == l) = true
      rw [beq_self_eq_true, Ty.beq_refl e]; rfl
  | .slice e => Ty.beq_refl e
  | .genericAny n => beq_self_eq_true n
  | .genericRestricted c => Ty.beqList_refl c
  | .func a r => by
      show (Ty.beqList a a && Ty.beq r r) = true
      rw [Ty.beqList_refl a, Ty.beq_refl r]; rfl
  | .struct n m => by
      show (n == n && Ty.beqNamed m m) = true
      rw [beq_self_eq_true, Ty.beqNamed_refl m]; rfl
  | .sum n c => by
      show (n == n && Ty.beqNamed c c) = true
      rw [beq_self_eq_true, Ty.beqNamed_refl c]; rfl
  | .enum n c => by
      show (n == n && c == c) = true
      rw [beq_self_eq_true, beq_self_eq_true]; rfl
  | .optional a => Ty.beq_refl a
  | .interface n a => by
      show (n == n && Ty.beqList a a) = true
      rw [beq_self_eq_true, Ty.beqList_refl a]; rfl

/-- `Ty.beqList` is reflexive. -/
theorem Ty.beqList_refl : (ts : List Ty) → Ty.beqList ts ts = true
  | [] => rfl
  | t :: ts => by
      show (Ty.beq t t && Ty.beqList ts ts) = true
      rw [Ty.beq_refl t, Ty.beqList_refl ts]; rfl

/-- `Ty.beqNamed` is reflexive. -/
theorem Ty.beqNamed_refl : (ps : List (String × Ty)) → Ty.beqNamed ps ps = true
  | [] => rfl
  | (a, b) :: ps => by
      show (a == a && Ty.beq b b && Ty.beqNamed ps ps) = true
      rw [beq_self_eq_true, Ty.beq_refl b, Ty.beqNamed_refl ps]; rfl

end

/-- The one-step unfolding of `is_instantiation_of`, established by cases
so that it can be applied to symbolic types. -/
theorem inst_unfold (c g : Ty) :
    is_instantiation_of c g =
      if !g.is_generic then c == g
      else
        match c, g with
        | .array a _, .array b _ => is_instantiation_of a b
        | _, .genericAny _ => true
        | _, .genericRestricted _ => true
        | .struct _ ma, .struct _ mb =>
            ma.length == mb.length && instZipNamed ma mb
        | .func aArgs aRet, .func bArgs bRet =>
            is_instantiation_of aRet bRet && instZip aArgs bArgs
        | .sum _ ca, .sum _ cb => instZipNamed ca cb
        | _, _ => false := by
  cases c <;> cases g <;> rfl

end Rich

namespace TC

mutual

/-- `CTy.beq` is reflexive. -/
theorem CTy.cbeq_refl : (t : CTy) → CTy.beq t t = true
  | .void => rfl
  | .unknown => rfl
  | .int => rfl
  | .uint => rfl
  | .float => rfl
  | .char => rfl
  | .bool => rfl
  | .string => rfl
  | .emptyArray => rfl
  | .array e => CTy.cbeq_refl e
  | .slice e => CTy.cbeq_refl e
  | .generic n => beq_self_eq_true n
  | .func a r => by
      show (CTy.beqList a a && CTy.beq r r) = true
      rw [CTy.cbeqList_refl a, CTy.cbeq_refl r]; rfl
  | .struct m => CTy.cbeqNamed_refl m
  | .sum c i => by
      show (CTy.beqNamed c c && i == i) = true
      rw [beq_self_eq_true, CTy.cbeqNamed_refl c]; rfl
  | .enum c i => by
      show (c == c && i == i) = true
      rw [beq_self_eq_true, beq_self_eq_true]; rfl
  | .optional e => CTy.cbeq_refl e
  | .pointer e => CTy.cbeq_refl e
  | .unresolved n => beq_self_eq_true n

/-- `CTy.beqList` is reflexive. -/
theorem CTy.cbeqList_refl : (ts : List CTy) → CTy.beqList ts ts = true
  | [] => rfl
  | t :: ts => by
      show (CTy.beq t t && CTy.beqList ts ts) = true
      rw [CTy.cbeq_refl t, CTy.cbeqList_refl ts]; rfl

/-- `CTy.beqNamed` is reflexive. -/
theorem CTy.cbeqNamed_refl : (ps : List (String × CTy)) → CTy.beqNamed ps ps = true
  | [] => rfl
  | (a, b) :: ps => by
      show (a == a && CTy.beq b b && CTy.beqNamed ps ps) = true
      rw [beq_self_eq_true, CTy.cbeq_refl b, CTy.cbeqNamed_refl ps]; rfl

end

/-- `==` on `CTy` is reflexive. -/
theorem CTy.beq_self (t : CTy) : (t == t) = true := CTy.cbeq_refl t

end TC

/-! ## Claims about `is_instantiation_of` and conversions (C2, C3) -/

namespace Rich

/-- C2 counterexample: the claim asserts that `is_instantiation_of` rejects
any function pattern whose argument count differs from the concrete type's;
but `(int32, int32) -> int32` against the one-argument generic pattern
`($T) -> $T` is accepted (Rust's `zip` truncates to the shorter argument
list and no length check is made for `Func`), even though the
argument counts 2 and 1 differ. -/
theorem C2_counterexample :
    is_instantiation_of (.func [.int .i32, .int .i32] (.int .i32))
        (.func [.genericAny "T"] (.genericAny "T")) = true ∧
    [Ty.int .i32, Ty.int .i32].length ≠ [Ty.genericAny "T"].length :=
  ⟨rfl, by decide⟩

/-- C2 (amended): `is_instantiation_of(concrete, generic)` returns true on
every pair (t, t) with t non-generic (reflexivity), and rejects shape
mismatches — in particular Array(Int) against Slice($T) for any element
types, and struct patterns whose member count differs; but for function
and sum patterns only the common prefix of arguments/cases is compared, so
argument- or case-count mismatches are not rejected when that prefix
matches. -/
theorem C2_is_instantiation_of :
    (∀ t : Ty, t.is_generic = false → is_instantiation_of t t = true) ∧
    (∀ (et : Ty) (n : Nat) (g : Ty),
        is_instantiation_of (.array et n) (.slice g) = false) ∧
    (is_instantiation_of (.struct "s" [("a", .int .i32), ("b", .bool)])
        (.struct "p" [("a", .genericAny "T")]) = false) ∧
    (is_instantiation_of (.func [.int .i32, .int .i32] (.int .i32))
        (.func [.genericAny "T"] (.genericAny "T")) = true) ∧
    (is_instantiation_of (.sum "s" [("A", .int .i32), ("B", .bool)])
        (.sum "p" [("A", .genericAny "T")]) = true) := by
  refine ⟨?_, ?_, rfl, rfl, rfl⟩
  · intro t h
    rw [inst_unfold, h]
    simp only [Bool.not_false, if_true]
    exact Ty.beq_refl t
  · intro et n g
    rw [inst_unfold]
    cases hg : Ty.is_generic (.slice g) <;> simp only [hg] <;> rfl

/-- C2 witness: the amended reflexivity applied at the concrete non-generic
type `bool`. -/
theorem C2_witness :
    Ty.bool.is_generic = false ∧ is_instantiation_of Ty.bool Ty.bool = true :=
  ⟨rfl, C2_is_instantiation_of.1 Ty.bool rfl⟩

/-- C3: at a call site an argument whose checked type differs from the
substituted parameter type is replaced by the first applicable conversion
of the chain, which (by extensional equality of `Ty.convert` with the
claim-ordered chain `convertClaimOrder`) tries Array→Slice, X→Optional(X),
Optional(_)→Bool, Nil→Optional(T), Pointer↔*Void, Pointer→Bool and
any→Void in the claim's order; an argument of the expected type is kept,
and a Type error is raised exactly when no conversion applies. -/
theorem C3_conversion_order :
    (∀ (s f : Ty) (e : Expr), Ty.convert s f e = convertClaimOrder s f e) ∧
    (∀ (expected actual : Ty) (arg : Expr),
      (actual = expected → checkCallArg expected actual arg = .ok arg) ∧
      ((actual == expected) = false →
        checkCallArg expected actual arg =
          match expected.convert actual arg with
          | some conversion => .ok conversion
          | none => .error ())) := by
  constructor
  · intro s f e
    cases s <;> cases f <;> rfl
  · intro expected actual arg
    constructor
    · intro h
      subst h
      show (if (actual == actual) = true then _ else _) = _
      have hb : (actual == actual) = true := Ty.beq_refl actual
      rw [hb]
      rfl
    · intro h
      show (if (actual == expected) = true then _ else _) = _
      rw [h]
      rfl

/-- C3 witness: an `Array(int32, 3)` argument against a `Slice(int32)`
parameter is replaced by the `ArrayToSlice` conversion, and the two
conversion chains agree there. -/
theorem C3_witness :
    Ty.convert (.slice (.int .i32)) (.array (.int .i32) 3)
        (.nameRef "xs" (.array (.int .i32) 3)) =
      convertClaimOrder (.slice (.int .i32)) (.array (.int .i32) 3)
        (.nameRef "xs" (.array (.int .i32) 3)) ∧
    checkCallArg (.slice (.int .i32)) (.array (.int .i32) 3)
        (.nameRef "xs" (.array (.int .i32) 3)) =
      .ok (.arrayToSlice (.nameRef "xs" (.array (.int .i32) 3))) := by
  constructor
  · exact C3_conversion_order.1 _ _ _
  · rw [(C3_conversion_order.2 (.slice (.int .i32)) (.array (.int .i32) 3)
        (.nameRef "xs" (.array (.int .i32) 3))).2 rfl]
    rfl

end Rich

/-! ## Claim about `Import::resolve` (C10) -/

namespace Rich

/-- C10: `Import::resolve` searches the import's own symbols under the
plain name and then under `namespace::name`; the imported symbols are
consulted, in the same two-step order, only when `allow_imported_symbols`
is true; hence a name present among both the own and the imported symbols
resolves to the module's own symbol. -/
theorem C10_import_resolve :
    ∀ (imp : Import) (name : String) (allow : Bool),
      (∀ s, lookupSymbol imp.symbols name = some s →
          imp.resolve name allow = some s) ∧
      (∀ s, lookupSymbol imp.symbols name = none →
          lookupSymbol imp.symbols (imp.nsName ++ "::" ++ name) = some s →
          imp.resolve name allow = some s) ∧
      (resolveIn imp.nsName imp.symbols name = none →
          imp.resolve name false = none) ∧
      (resolveIn imp.nsName imp.symbols name = none →
          imp.resolve name true =
            resolveIn imp.nsName imp.importedSymbols name) := by
  intro imp name allow
  refine ⟨?_, ?_, ?_, ?_⟩
  · intro s h
    unfold Import.resolve resolveIn
    rw [h]
  · intro s h1 h2
    unfold Import.resolve resolveIn
    rw [h1, h2]
  · intro h
    unfold Import.resolve
    rw [h]
    rfl
  · intro h
    unfold Import.resolve
    rw [h]
    rfl

/-- C10 witness: a name present in both maps (with different payload
symbols) resolves to the module's own symbol even when imported symbols
are allowed. -/
theorem C10_witness :
    (Import.mk "m"
        [("x", Symbol.mk "x" Ty.bool false SymbolType.normal)]
        [("x", Symbol.mk "x" Ty.char true SymbolType.external)]).resolve
      "x" true = some (Symbol.mk "x" Ty.bool false SymbolType.normal) :=
  (C10_import_resolve
      (Import.mk "m"
        [("x", Symbol.mk "x" Ty.bool false SymbolType.normal)]
        [("x", Symbol.mk "x" Ty.char true SymbolType.external)])
      "x" true).1 _ rfl

end Rich

/-! ## Claim about binary-operator checking (C6) -/

namespace TC

/-- C6 counterexample: the claim accepts `mod` whenever both operands are
numeric of the same precision, but the checker requires *integer* operands
for `Mod`: `float % float` is rejected with a Type error although `float`
is numeric and both operands agree. -/
theorem C6_counterexample :
    type_check_binary_op .mod CTy.float CTy.float = .error .typeError ∧
    CTy.float.is_numeric = true ∧ CTy.float = CTy.float :=
  ⟨rfl, rfl, rfl⟩

/-- C6 (amended): for non-generic operand types, `sub`/`mul`/`div` are
accepted exactly when both operands are numeric and equal (the result being
the operand type); `mod` is accepted exactly when both operands are
integers (the result being `Int` regardless of the operand type); and
`add` is decided by the addition table (Int+Int→Int, Float+Float→Float,
Char+Char→Char); every other combination is a Type error. -/
theorem C6_binary_arithmetic :
    ∀ l r : CTy, l.is_generic = false → r.is_generic = false →
      (type_check_binary_op .sub l r =
        (if l.is_numeric && r.is_numeric && l == r
         then .ok l else .error .typeError)) ∧
      (type_check_binary_op .mul l r =
        (if l.is_numeric && r.is_numeric && l == r
         then .ok l else .error .typeError)) ∧
      (type_check_binary_op .div l r =
        (if l.is_numeric && r.is_numeric && l == r
         then .ok l else .error .typeError)) ∧
      (type_check_binary_op .mod l r =
        (if l.is_integer && r.is_integer
         then .ok CTy.int else .error .typeError)) ∧
      (type_check_binary_op .add l r =
        (match additionType l r with
         | some t => .ok t
         | none => .error .typeError)) := by
  intro l r hl hr
  have harith :
      type_check_binary_op .sub l r =
        (if l.is_numeric && r.is_numeric && l == r
         then .ok l else .error .typeError) ∧
      type_check_binary_op .mul l r =
        (if l.is_numeric && r.is_numeric && l == r
         then .ok l else .error .typeError) ∧
      type_check_binary_op .div l r =
        (if l.is_numeric && r.is_numeric && l == r
         then .ok l else .error .typeError) := by
    refine ⟨?_, ?_, ?_⟩ <;>
      · unfold type_check_binary_op
        rw [hl, hr]
        cases hn1 : l.is_numeric <;> cases hn2 : r.is_numeric <;>
          cases heq : (l == r) <;> simp
  refine ⟨harith.1, harith.2.1, harith.2.2, ?_, ?_⟩
  · unfold type_check_binary_op
    rw [hl, hr]
    cases h1 : l.is_integer <;> cases h2 : r.is_integer <;> simp
  · unfold type_check_binary_op
    rw [hl, hr]
    simp

/-- C6 witness: the amended characterization applied at `int - int`, which
is accepted with result type `int`. -/
theorem C6_witness :
    type_check_binary_op .sub CTy.int CTy.int = .ok CTy.int := by
  have h := (C6_binary_arithmetic CTy.int CTy.int rfl rfl).1
  rw [h]
  rfl

end TC

/-! ## Claim about `get_dst` (C9) -/

namespace TC

/-- C9 counterexample: the claim says `get_dst(T)` stack-allocates a fresh
temporary when the destination on top of the stack is not type-compatible
with T; but with a `bool` destination present and `int` requested, the
assertion `assert!(dst.typ == *typ)` fails (a panic, modelled as `none`) —
no fresh temporary is allocated. -/
theorem C9_counterexample :
    get_dst
      (LLFunc.mk [(0, [])] [0] 0 1 0
        [LLScope.mk [] []] [some (LLVar.mk "d" CTy.bool)])
      CTy.int = none ∧
    (LLFunc.mk [(0, [])] [0] 0 1 0
        [LLScope.mk [] []] [some (LLVar.mk "d" CTy.bool)]).getDestination
      = some (LLVar.mk "d" CTy.bool) ∧
    CTy.beq CTy.bool CTy.int = false :=
  ⟨rfl, rfl, rfl⟩

/-- C9 (amended): for a requested type other than `Unknown`, `get_dst`
returns the top of the destination stack when a destination is present and
its type equals the requested type, panics (asserts) when a destination is
present with a different type, and stack-allocates a fresh `$var{n}`
temporary of the requested type only when no destination is present. -/
theorem C9_get_dst :
    ∀ (f : LLFunc) (typ : CTy), (typ == CTy.unknown) = false →
      (∀ dst, f.getDestination = some dst →
        get_dst f typ =
          (if CTy.beq dst.typ typ then some (dst, f) else none)) ∧
      (f.getDestination = none →
        get_dst f typ = some (stack_alloc f typ none) ∧
        (stack_alloc f typ none).1 = LLVar.fresh f.varCounter typ) := by
  intro f typ h
  constructor
  · intro dst hd
    unfold get_dst
    rw [h, hd]
    rfl
  · intro hd
    constructor
    · unfold get_dst
      rw [h, hd]
      rfl
    · rfl

/-- C9 witness: the amended characterization applied at a state with no
destination (`get_dst` allocates the fresh temporary `$var0`) and at a
state with an `int` destination of the requested type. -/
theorem C9_witness :
    get_dst (LLFunc.mk [(0, [])] [0] 0 1 0 [LLScope.mk [] []] []) CTy.int =
      some (stack_alloc
        (LLFunc.mk [(0, [])] [0] 0 1 0 [LLScope.mk [] []] []) CTy.int none) ∧
    (stack_alloc (LLFunc.mk [(0, [])] [0] 0 1 0 [LLScope.mk [] []] [])
        CTy.int none).1 = LLVar.fresh 0 CTy.int ∧
    get_dst
      (LLFunc.mk [(0, [])] [0] 0 1 0 [LLScope.mk [] []]
        [some (LLVar.mk "d" CTy.int)]) CTy.int =
      some (LLVar.mk "d" CTy.int,
        LLFunc.mk [(0, [])] [0] 0 1 0 [LLScope.mk [] []]
          [some (LLVar.mk "d" CTy.int)]) := by
  refine ⟨?_, ?_, ?_⟩
  · exact ((C9_get_dst
      (LLFunc.mk [(0, [])] [0] 0 1 0 [LLScope.mk [] []] []) CTy.int rfl).2
      rfl).1
  · exact ((C9_get_dst
      (LLFunc.mk [(0, [])] [0] 0 1 0 [LLScope.mk [] []] []) CTy.int rfl).2
      rfl).2
  · have h := (C9_get_dst
      (LLFunc.mk [(0, [])] [0] 0 1 0 [LLScope.mk [] []]
        [some (LLVar.mk "d" CTy.int)]) CTy.int rfl).1
      (LLVar.mk "d" CTy.int) rfl
    rw [h]
    rfl

end TC

/-! ## Claim about the Return emission of `func_to_llrep` (C1) -/

namespace TC

/-- The current basic block exists in the block map. -/
def hasCurrent (f : LLFunc) : Prop :=
  (lookupBlock f.blocks f.currentBB).isSome

/-- `LLVar` equality (`==`) is reflexive. -/
theorem LLVar.lbeq_refl (v : LLVar) : (v == v) = true := by
  show (v.name == v.name && CTy.beq v.typ v.typ) = true
  rw [beq_self_eq_true, CTy.cbeq_refl]; rfl

/-- Appending an instruction to a block id rewrites exactly that block's
entry in the block map. -/
theorem lookup_updateBlock (bs : List (Nat × List LLInstruction)) (cur : Nat)
    (i : LLInstruction) :
    lookupBlock (updateBlock bs cur i) cur
      = (lookupBlock bs cur).map (fun l => l ++ [i]) := by
  induction bs with
  | nil => rfl
  | cons hd tl ih =>
      unfold updateBlock
      cases h : (hd.1 == cur) with
      | true => simp [lookupBlock, h]
      | false =>
          simp only [Bool.false_eq_true, if_false, lookupBlock, h]
          exact ih

/-- `emit` appends to the current block's instruction list. -/
theorem emit_blockInstrs (f : LLFunc) (i : LLInstruction)
    (h : hasCurrent f) :
    blockInstrs (f.emit i) f.currentBB = blockInstrs f f.currentBB ++ [i] := by
  unfold blockInstrs LLFunc.emit
  simp only
  rw [lookup_updateBlock]
  unfold hasCurrent at h
  cases hf : lookupBlock f.blocks f.currentBB with
  | none => simp [hf] at h
  | some l => simp [hf]

/-- `emit` keeps the current block present. -/
theorem emit_hasCurrent (f : LLFunc) (i : LLInstruction)
    (h : hasCurrent f) : hasCurrent (f.emit i) := by
  unfold hasCurrent at h ⊢
  show (lookupBlock (updateBlock f.blocks f.currentBB i) f.currentBB).isSome
  rw [lookup_updateBlock]
  cases hf : lookupBlock f.blocks f.currentBB with
  | none => simp [hf] at h
  | some l => rfl

/-- Emitting a `DecRef` list by a left fold appends the corresponding
instructions in order, preserving the current block, the scope stack and
the presence of the current block. -/
theorem emitList_blockInstrs (l : List LLVar) :
    ∀ (f : LLFunc), hasCurrent f →
      blockInstrs (l.foldl (fun acc v => acc.emit (.decRef v)) f) f.currentBB
        = blockInstrs f f.currentBB ++ l.map LLInstruction.decRef ∧
      (l.foldl (fun acc v => acc.emit (.decRef v)) f).currentBB
        = f.currentBB ∧
      (l.foldl (fun acc v => acc.emit (.decRef v)) f).scopes = f.scopes ∧
      hasCurrent (l.foldl (fun acc v => acc.emit (.decRef v)) f) := by
  induction l with
  | nil => intro f h; exact ⟨by simp, rfl, rfl, h⟩
  | cons v rest ih =>
      intro f h
      have h1 : hasCurrent (f.emit (.decRef v)) := emit_hasCurrent f _ h
      have hcur : (f.emit (.decRef v)).currentBB = f.currentBB := rfl
      have hsc : (f.emit (.decRef v)).scopes = f.scopes := rfl
      obtain ⟨e1, e2, e3, e4⟩ := ih (f.emit (.decRef v)) h1
      refine ⟨?_, ?_, ?_, e4⟩
      · show blockInstrs (List.foldl _ (f.emit (.decRef v)) rest)
            f.currentBB = _
        rw [← hcur, e1, hcur, emit_blockInstrs f _ h]
        simp
      · show (List.foldl _ (f.emit (.decRef v)) rest).currentBB = _
        rw [e2, hcur]
      · show (List.foldl _ (f.emit (.decRef v)) rest).scopes = _
        rw [e3, hsc]

/-- C1: at the emission of the `Return` in `func_to_llrep`, a
heap-allocated result variable is removed from the (single remaining)
function scope's DecRef cleanup list, so no `DecRef` of the returned
variable is emitted; the scope's remaining DecRef targets are emitted as
`DecRef`s in reverse registration order, followed directly by the
`Return`; the final scope pop emits no `EndScope`, and the scope stack is
left empty. -/
theorem C1_return_emission :
    ∀ (f : LLFunc) (s : LLScope) (v : LLVar),
      f.scopes = [s] → hasCurrent f → v.typ.allocate_on_heap = true →
      (funcReturnEmission f v).scopes = [] ∧
      blockInstrs (funcReturnEmission f v) f.currentBB =
        blockInstrs f f.currentBB ++
          ((s.toDecRef.filter (fun x => !(x == v))).reverse.map
            LLInstruction.decRef ++ [LLInstruction.ret v]) ∧
      (∀ inst ∈
          (s.toDecRef.filter (fun x => !(x == v))).reverse.map
            LLInstruction.decRef ++ [LLInstruction.ret v],
        inst ≠ LLInstruction.endScope ∧ inst ≠ LLInstruction.decRef v) := by
  intro f s v hs hcur hheap
  have hrem : f.removeDecRefTarget v
      = { f with scopes := [s.removeDecRefTarget v] } := by
    unfold LLFunc.removeDecRefTarget
    rw [hs]
  have hG : funcReturnEmission f v
      = (LLFunc.cleanupScope { f with scopes := [] }
          (s.removeDecRefTarget v)).emit (.ret v) := by
    unfold funcReturnEmission
    rw [hheap]
    show (f.removeDecRefTarget v).add (.ret v) = _
    rw [hrem]
    rfl
  obtain ⟨c1, c2, c3, c4⟩ := emitList_blockInstrs
      (s.removeDecRefTarget v).toDecRef.reverse { f with scopes := [] } hcur
  have hcleanEq : LLFunc.cleanupScope { f with scopes := [] }
        (s.removeDecRefTarget v)
      = (s.removeDecRefTarget v).toDecRef.reverse.foldl
          (fun acc v => acc.emit (.decRef v)) { f with scopes := [] } := rfl
  have hfilter : (s.removeDecRefTarget v).toDecRef
      = s.toDecRef.filter (fun x => !(x == v)) := rfl
  refine ⟨?_, ?_, ?_⟩
  · rw [hG]
    show (LLFunc.cleanupScope { f with scopes := [] }
        (s.removeDecRefTarget v)).scopes = []
    rw [hcleanEq]
    exact c3
  · rw [hG]
    have hc : (LLFunc.cleanupScope { f with scopes := [] }
        (s.removeDecRefTarget v)).currentBB = f.currentBB := by
      rw [hcleanEq]; exact c2
    have e := emit_blockInstrs
        (LLFunc.cleanupScope { f with scopes := [] }
          (s.removeDecRefTarget v)) (.ret v) (by rw [hcleanEq]; exact c4)
    rw [hc] at e
    rw [e]
    have hc1 : blockInstrs (LLFunc.cleanupScope { f with scopes := [] }
          (s.removeDecRefTarget v)) f.currentBB
        = blockInstrs f f.currentBB ++
            ((s.removeDecRefTarget v).toDecRef.reverse.map
              LLInstruction.decRef) := by
      rw [hcleanEq]; exact c1
    rw [hc1, hfilter]
    simp
  · intro inst hin
    rcases List.mem_append.mp hin with hmem | hmem
    · rcases List.mem_map.mp hmem with ⟨x, hx, hxe⟩
      constructor
      · rw [← hxe]; intro hab; cases hab
      · rw [← hxe]
        intro hab
        have hxv : x = v := by cases hab; rfl
        have hkeep := List.of_mem_filter (List.mem_reverse.mp hx)
        rw [hxv, LLVar.lbeq_refl v] at hkeep
        cases hkeep
    · rw [List.mem_singleton.mp hmem]
      refine ⟨?_, ?_⟩ <;> (intro hab; cases hab)

/-- C1 witness: the Return emission computed on a concrete single-scope
state whose cleanup list holds the returned string variable `r` and
another string variable `a`: only `DecRef a` is emitted before
`Return r`, and no `EndScope` appears. -/
theorem C1_witness :
    (LLFunc.mk [(0, [LLInstruction.startScope])] [0] 0 1 2
        [LLScope.mk [LLVar.mk "a" CTy.string, LLVar.mk "r" CTy.string]
          [LLVar.mk "a" CTy.string, LLVar.mk "r" CTy.string]] []).scopes
      = [LLScope.mk [LLVar.mk "a" CTy.string, LLVar.mk "r" CTy.string]
          [LLVar.mk "a" CTy.string, LLVar.mk "r" CTy.string]] ∧
    (LLVar.mk "r" CTy.string).typ.allocate_on_heap = true ∧
    (funcReturnEmission
      (LLFunc.mk [(0, [LLInstruction.startScope])] [0] 0 1 2
        [LLScope.mk [LLVar.mk "a" CTy.string, LLVar.mk "r" CTy.string]
          [LLVar.mk "a" CTy.string, LLVar.mk "r" CTy.string]] [])
      (LLVar.mk "r" CTy.string)).scopes = [] ∧
    blockInstrs
      (funcReturnEmission
        (LLFunc.mk [(0, [LLInstruction.startScope])] [0] 0 1 2
          [LLScope.mk [LLVar.mk "a" CTy.string, LLVar.mk "r" CTy.string]
            [LLVar.mk "a" CTy.string, LLVar.mk "r" CTy.string]] [])
        (LLVar.mk "r" CTy.string)) 0 =
      [LLInstruction.startScope,
       LLInstruction.decRef (LLVar.mk "a" CTy.string),
       LLInstruction.ret (LLVar.mk "r" CTy.string)] := by
  have h := C1_return_emission
    (LLFunc.mk [(0, [LLInstruction.startScope])] [0] 0 1 2
      [LLScope.mk [LLVar.mk "a" CTy.string, LLVar.mk "r" CTy.string]
        [LLVar.mk "a" CTy.string, LLVar.mk "r" CTy.string]] [])
    (LLScope.mk [LLVar.mk "a" CTy.string, LLVar.mk "r" CTy.string]
      [LLVar.mk "a" CTy.string, LLVar.mk "r" CTy.string])
    (LLVar.mk "r" CTy.string) rfl (by unfold hasCurrent; rfl) rfl
  refine ⟨rfl, rfl, h.1, ?_⟩
  rw [h.2.1]
  rfl

/-! ## Claim about array-pattern match lowering (C8) -/

/-- C8: lowering the array-pattern arm `[h | t] => 0` of a match on
`xs : int[]` (destination `d`, shared end block 99).  The head and tail
extractions and their `Bind`s are emitted into the *test* block (block 0),
*before* the length guard and its `BranchIf` — not into the case block
after the guard as the claim (and the spec) state; the case block (block
1) holds only the lowered arm body followed by the `Branch` to the shared
end block.  Consequently `ArrayHead`/`ArrayTail` of the scrutinee execute
even when the guard fails (in particular on an empty array). -/
theorem C8_array_pattern_lowering :
    (matchCaseArrayArmToLLRep
        (LLFunc.mk [(0, [])] [0] 0 1 0
          [LLScope.mk [LLVar.mk "xs" (CTy.array CTy.int)] []]
          [some (LLVar.mk "d" CTy.int)])
        "h" "t" (.litInt 0) (LLVar.mk "xs" (CTy.array CTy.int)) 99).map
      (fun g => (blockInstrs g 0, blockInstrs g 1)) =
    some
      ([LLInstruction.set (LLVar.mk "$var0" CTy.int)
          (LLExpr.arrayHead (LLVar.mk "xs" (CTy.array CTy.int))),
        LLInstruction.bind "h" (LLVar.mk "$var0" CTy.int),
        LLInstruction.set (LLVar.mk "$var1" (CTy.array CTy.int))
          (LLExpr.arrayTail (LLVar.mk "xs" (CTy.array CTy.int))),
        LLInstruction.bind "t" (LLVar.mk "$var1" (CTy.array CTy.int)),
        LLInstruction.set (LLVar.mk "$var2" CTy.int)
          (LLExpr.arrayLen (LLVar.mk "xs" (CTy.array CTy.int))),
        LLInstruction.set (LLVar.mk "$var3" CTy.int)
          (LLExpr.lit (LLLiteral.intL 0)),
        LLInstruction.set (LLVar.mk "$var4" CTy.bool)
          (LLExpr.binaryOp .greaterThan (LLVar.mk "$var2" CTy.int)
            (LLVar.mk "$var3" CTy.int)),
        LLInstruction.branchIf (LLVar.mk "$var4" CTy.bool) 1 2],
       [LLInstruction.set (LLVar.mk "d" CTy.int)
          (LLExpr.lit (LLLiteral.intL 0)),
        LLInstruction.branch 99]) := rfl

/-! ## Claim about enum lowering of payload-free sums (C5) -/

/-- Looking up the key just added finds its value. -/
theorem resolveType_add_self (ctx : SymTab) (n : String) (t : CTy) :
    (ctx.add n t).resolveType n = some t := by
  induction ctx with
  | nil => simp [SymTab.add, SymTab.resolveType]
  | cons hd tl ih =>
      unfold SymTab.add
      cases h : (hd.1 == n) with
      | true => simp [SymTab.resolveType, h]
      | false => simp [SymTab.resolveType, h, ih]

/-- Adding a different key does not change a lookup. -/
theorem resolveType_add_other (ctx : SymTab) (n m : String) (t : CTy)
    (hne : m ≠ n) : (ctx.add n t).resolveType m = ctx.resolveType m := by
  induction ctx with
  | nil =>
      simp [SymTab.add, SymTab.resolveType]
      intro h
      exact absurd h.symm hne
  | cons hd tl ih =>
      unfold SymTab.add
      cases h : (hd.1 == n) with
      | true =>
          have hk : hd.1 = n := by simpa using h
          have hm : (hd.1 == m) = false := by
            rw [hk]
            exact beq_eq_false_iff_ne.mpr (fun e => hne e.symm)
          simp [SymTab.resolveType, hm]
      | false =>
          cases hm : (hd.1 == m) with
          | true => simp [SymTab.resolveType, hm]
          | false => simp [SymTab.resolveType, hm, ih]

/-- A name not used by any later case registration is untouched by
`addEnumCaseSyms`. -/
theorem addEnumCaseSyms_skip (names : List String) :
    ∀ (cs : List SSumCase) (ctx : SymTab) (start : Nat) (n : String),
      (∀ c ∈ cs, c.name ≠ n) →
      (addEnumCaseSyms names ctx cs start).resolveType n
        = ctx.resolveType n := by
  intro cs
  induction cs with
  | nil => intro ctx start n _; rfl
  | cons c rest ih =>
      intro ctx start n h
      unfold addEnumCaseSyms
      rw [ih _ _ _ (fun x hx => h x (List.mem_cons_of_mem c hx))]
      exact resolveType_add_other _ _ _ _
        (fun he => h c (List.mem_cons_self c rest) he.symm)

/-- `addEnumCaseSyms` registers the i-th case name as the enum type with
index `start + i`, provided the case names are distinct. -/
theorem addEnumCaseSyms_lookup (names : List String) :
    ∀ (cs : List SSumCase) (ctx : SymTab) (start : Nat),
      (cs.map (fun c => c.name)).Nodup →
      ∀ i, (hi : i < cs.length) →
        (addEnumCaseSyms names ctx cs start).resolveType
            (cs.get ⟨i, hi⟩).name
          = some (.enum names (some (start + i))) := by
  intro cs
  induction cs with
  | nil => intro ctx start _ i hi; exact absurd hi (Nat.not_lt_zero i)
  | cons c rest ih =>
      intro ctx start hnd i hi
      have hnd2 := List.nodup_cons.mp hnd
      cases i with
      | zero =>
          show (addEnumCaseSyms names
              (ctx.add c.name (.enum names (some start))) rest (start + 1)
            ).resolveType c.name = some (.enum names (some (start + 0)))
          rw [addEnumCaseSyms_skip names rest _ _ _
            (fun x hx he =>
              hnd2.1 (List.mem_map.mpr ⟨x, hx, he⟩))]
          rw [resolveType_add_self]
          rfl
      | succ j =>
          have hj : j < rest.length := Nat.lt_of_succ_lt_succ hi
          have := ih (ctx.add c.name (.enum names (some start)))
            (start + 1) hnd2.2 j hj
          show (addEnumCaseSyms names
              (ctx.add c.name (.enum names (some start))) rest (start + 1)
            ).resolveType (rest.get ⟨j, hj⟩).name
            = some (.enum names (some (start + (j + 1))))
          rw [this]
          have : start + 1 + j = start + (j + 1) := by omega
          rw [this]

/-- A payload-free case list resolves to itself with the `Int` sentinel
case types. -/
theorem resolveSumCases_none (ctx : SymTab) (mode : ResolveMode) :
    ∀ cs : List SSumCase, (∀ c ∈ cs, c.data = none) →
      resolveSumCases ctx mode cs
        = .ok (cs, cs.map (fun c => (c.name, CTy.int)), .yes) := by
  intro cs
  induction cs with
  | nil => intro _; rfl
  | cons c rest ih =>
      intro h
      unfold resolveSumCases
      rw [h c (List.mem_cons_self c rest)]
      rw [ih (fun x hx => h x (List.mem_cons_of_mem c hx))]
      rfl

/-- The sentinel case-type list passes the all-`Int` test. -/
theorem allInt_sentinel :
    ∀ cs : List SSumCase,
      (cs.map (fun c => (c.name, CTy.int))).all
        (fun ct => ct.2 == CTy.int) = true := by
  intro cs
  induction cs with
  | nil => rfl
  | cons c rest ih =>
      simp only [List.map_cons, List.all_cons, ih, Bool.and_true]
      rfl

/-- A successfully resolved case list maps a case with a (still
unresolved) struct payload to a `Struct` case type. -/
theorem resolveSumCases_struct (ctx : SymTab) (mode : ResolveMode) :
    ∀ (cs cs2 : List SSumCase) (caseTypes : List (String × CTy))
      (c : SSumCase) (sd : SStructDecl),
      resolveSumCases ctx mode cs = .ok (cs2, caseTypes, .yes) →
      c ∈ cs → c.data = some sd → sd.typ = CTy.unknown →
      ∃ ms, (c.name, CTy.struct ms) ∈ caseTypes := by
  intro cs
  induction cs with
  | nil => intro cs2 caseTypes c sd _ hmem; cases hmem
  | cons c0 rest ih =>
      intro cs2 caseTypes c sd hres hmem hdata htyp
      unfold resolveSumCases at hres
      rcases List.mem_cons.mp hmem with rfl | hmem2
      · simp only [hdata] at hres
        unfold resolve_struct_member_types at hres
        simp only [htyp, CTy.beq_self, Bool.not_true, Bool.false_eq_true,
          if_false] at hres
        cases hm : resolveMembers ctx mode sd.members with
        | error e => simp only [hm] at hres; cases hres
        | ok p =>
            rcases p with ⟨ms2, flag⟩
            cases flag with
            | no => simp only [hm] at hres; cases hres
            | yes =>
                simp only [hm] at hres
                cases hr : resolveSumCases ctx mode rest with
                | error e => simp only [hr] at hres; cases hres
                | ok q =>
                    rcases q with ⟨rest2, ctr, flag2⟩
                    simp only [hr] at hres
                    cases hres
                    exact ⟨ms2.map (fun m => (m.name, m.typ)),
                      List.mem_cons_self _ _⟩
      · cases hd0 : c0.data with
        | some sd0 =>
            simp only [hd0] at hres
            cases hs0 : resolve_struct_member_types ctx sd0 mode with
            | error e => simp only [hs0] at hres; cases hres
            | ok p =>
                rcases p with ⟨sd02, flag0⟩
                cases flag0 with
                | no => simp only [hs0] at hres; cases hres
                | yes =>
                    simp only [hs0] at hres
                    cases hr : resolveSumCases ctx mode rest with
                    | error e => simp only [hr] at hres; cases hres
                    | ok q =>
                        rcases q with ⟨rest2, ctr, flag2⟩
                        simp only [hr] at hres
                        cases flag2 with
                        | no => cases hres
                        | yes =>
                            cases hres
                            obtain ⟨ms, hms⟩ :=
                              ih rest2 ctr c sd hr hmem2 hdata htyp
                            exact ⟨ms, List.mem_cons_of_mem _ hms⟩
        | none =>
            simp only [hd0] at hres
            cases hr : resolveSumCases ctx mode rest with
            | error e => simp only [hr] at hres; cases hres
            | ok q =>
                rcases q with ⟨rest2, ctr, flag2⟩
                simp only [hr] at hres
                cases flag2 with
                | no => cases hres
                | yes =>
                    cases hres
                    obtain ⟨ms, hms⟩ := ih rest2 ctr c sd hr hmem2 hdata htyp
                    exact ⟨ms, List.mem_cons_of_mem _ hms⟩

/-- C5: a sum-type declaration all of whose cases carry no struct payload
(so every case type is the `Int` sentinel) is rewritten by resolution to an
`Enum` type, and — when the case names are distinct — each case name is
registered in the symbol table as the enum type carrying its case index;
a sum with at least one (unresolved) struct-payload case that resolves
successfully gets a `Sum` type instead. -/
theorem C5_enum_lowering :
    (∀ (mode : ResolveMode) (ctx : SymTab) (st : SSumDecl),
      st.typ = CTy.unknown →
      (∀ c ∈ st.cases, c.data = none) →
      resolve_sum_case_types ctx st mode =
        .ok (addEnumCaseSyms (st.cases.map (fun c => c.name))
              (ctx.add st.name (.enum (st.cases.map (fun c => c.name)) none))
              st.cases 0,
             { st with typ := .enum (st.cases.map (fun c => c.name)) none },
             .yes)) ∧
    (∀ (mode : ResolveMode) (ctx : SymTab) (st : SSumDecl),
      st.typ = CTy.unknown →
      (∀ c ∈ st.cases, c.data = none) →
      (st.cases.map (fun c => c.name)).Nodup →
      ∀ ctx2 st2 flag, resolve_sum_case_types ctx st mode = .ok (ctx2, st2, flag) →
      ∀ i, (hi : i < st.cases.length) →
        ctx2.resolveType (st.cases.get ⟨i, hi⟩).name
          = some (.enum (st.cases.map (fun c => c.name)) (some i))) ∧
    (∀ (mode : ResolveMode) (ctx : SymTab) (st : SSumDecl) (c : SSumCase)
        (sd : SStructDecl) (ctx2 : SymTab) (st2 : SSumDecl),
      st.typ = CTy.unknown →
      c ∈ st.cases → c.data = some sd → sd.typ = CTy.unknown →
      resolve_sum_case_types ctx st mode = .ok (ctx2, st2, .yes) →
      ∃ caseTypes, st2.typ = CTy.sum caseTypes none) := by
  have main : ∀ (mode : ResolveMode) (ctx : SymTab) (st : SSumDecl),
      st.typ = CTy.unknown →
      (∀ c ∈ st.cases, c.data = none) →
      resolve_sum_case_types ctx st mode =
        .ok (addEnumCaseSyms (st.cases.map (fun c => c.name))
              (ctx.add st.name (.enum (st.cases.map (fun c => c.name)) none))
              st.cases 0,
             { st with typ := .enum (st.cases.map (fun c => c.name)) none },
             .yes) := by
    intro mode ctx st htyp hnone
    unfold resolve_sum_case_types
    rw [htyp]
    simp only [CTy.beq_self, Bool.not_true, Bool.false_eq_true, if_false]
    rw [resolveSumCases_none ctx mode st.cases hnone]
    simp only [allInt_sentinel st.cases, if_true]
  refine ⟨main, ?_, ?_⟩
  · intro mode ctx st htyp hnone hnd ctx2 st2 flag hres i hi
    rw [main mode ctx st htyp hnone] at hres
    have hctx2 : ctx2 = addEnumCaseSyms (st.cases.map (fun c => c.name))
        (ctx.add st.name (.enum (st.cases.map (fun c => c.name)) none))
        st.cases 0 := by
      cases hres; rfl
    rw [hctx2]
    have := addEnumCaseSyms_lookup (st.cases.map (fun c => c.name))
      st.cases (ctx.add st.name (.enum (st.cases.map (fun c => c.name)) none))
      0 hnd i hi
    simpa using this
  · intro mode ctx st c sd ctx2 st2 htyp hmem hdata hsdtyp hres
    unfold resolve_sum_case_types at hres
    rw [htyp] at hres
    simp only [CTy.beq_self, Bool.not_true, Bool.false_eq_true,
      if_false] at hres
    cases hr : resolveSumCases ctx mode st.cases with
    | error e => simp only [hr] at hres; cases hres
    | ok p =>
        rcases p with ⟨cases2, caseTypes, flag⟩
        simp only [hr] at hres
        cases flag with
        | no => cases hres
        | yes =>
            obtain ⟨ms, hms⟩ := resolveSumCases_struct ctx mode st.cases
              cases2 caseTypes c sd hr hmem hdata hsdtyp
            have hallfalse : caseTypes.all (fun ct => ct.2 == CTy.int)
                = false := by
              cases hall : caseTypes.all (fun ct => ct.2 == CTy.int) with
              | false => rfl
              | true =>
                  have := List.all_eq_true.mp hall _ hms
                  cases this
            simp only [hallfalse, Bool.false_eq_true, if_false] at hres
            rcases hsum : addSumCaseSyms caseTypes
                (SymTab.add ctx st.name (CTy.sum caseTypes none)) cases2 0
              with ⟨ctxS, casesS⟩
            simp only [hsum] at hres
            cases hres
            exact ⟨caseTypes, rfl⟩

/-- C5 witness: the enum branch applied to `type Color = R | G | B` (the
declaration's type becomes `Enum([R,G,B], None)` and `G` is registered
with case index 1), and the sum branch applied to `type E = A{x:int} | B`
(the resolved declaration's type is a `Sum` type). -/
theorem C5_witness :
    resolve_sum_case_types []
      (SSumDecl.mk "Color" CTy.unknown
        [SSumCase.mk "R" CTy.unknown none 1,
         SSumCase.mk "G" CTy.unknown none 2,
         SSumCase.mk "B" CTy.unknown none 3] 0) .lazyMode =
      .ok (addEnumCaseSyms ["R", "G", "B"]
            (SymTab.add [] "Color" (.enum ["R", "G", "B"] none))
            [SSumCase.mk "R" CTy.unknown none 1,
             SSumCase.mk "G" CTy.unknown none 2,
             SSumCase.mk "B" CTy.unknown none 3] 0,
           SSumDecl.mk "Color" (.enum ["R", "G", "B"] none)
             [SSumCase.mk "R" CTy.unknown none 1,
              SSumCase.mk "G" CTy.unknown none 2,
              SSumCase.mk "B" CTy.unknown none 3] 0,
           .yes) ∧
    SymTab.resolveType
      (addEnumCaseSyms ["R", "G", "B"]
        (SymTab.add [] "Color" (.enum ["R", "G", "B"] none))
        [SSumCase.mk "R" CTy.unknown none 1,
         SSumCase.mk "G" CTy.unknown none 2,
         SSumCase.mk "B" CTy.unknown none 3] 0) "G"
      = some (.enum ["R", "G", "B"] (some 1)) ∧
    (∃ caseTypes,
      (SSumDecl.mk "E"
        (CTy.sum [("A", CTy.struct [("x", CTy.int)]), ("B", CTy.int)] none)
        [SSumCase.mk "A"
          (CTy.sum [("A", CTy.struct [("x", CTy.int)]), ("B", CTy.int)]
            (some 0))
          (some (SStructDecl.mk "A" (CTy.struct [("x", CTy.int)])
            [SMember.mk "x" CTy.int 4] 4)) 4,
         SSumCase.mk "B"
          (CTy.sum [("A", CTy.struct [("x", CTy.int)]), ("B", CTy.int)]
            (some 1)) none 5] 0).typ
        = CTy.sum caseTypes none) ∧
    resolve_sum_case_types []
      (SSumDecl.mk "E" CTy.unknown
        [SSumCase.mk "A" CTy.unknown
          (some (SStructDecl.mk "A" CTy.unknown
            [SMember.mk "x" CTy.int 4] 4)) 4,
         SSumCase.mk "B" CTy.unknown none 5] 0) .lazyMode
      = .ok ([("E", CTy.sum
                [("A", CTy.struct [("x", CTy.int)]), ("B", CTy.int)] none),
              ("A", CTy.sum
                [("A", CTy.struct [("x", CTy.int)]), ("B", CTy.int)]
                (some 0)),
              ("B", CTy.sum
                [("A", CTy.struct [("x", CTy.int)]), ("B", CTy.int)]
                (some 1))],
             SSumDecl.mk "E"
               (CTy.sum [("A", CTy.struct [("x", CTy.int)]), ("B", CTy.int)]
                 none)
               [SSumCase.mk "A"
                 (CTy.sum [("A", CTy.struct [("x", CTy.int)]),
                   ("B", CTy.int)] (some 0))
                 (some (SStructDecl.mk "A" (CTy.struct [("x", CTy.int)])
                   [SMember.mk "x" CTy.int 4] 4)) 4,
                SSumCase.mk "B"
                 (CTy.sum [("A", CTy.struct [("x", CTy.int)]),
                   ("B", CTy.int)] (some 1)) none 5] 0,
             .yes) := by
  have hcolor := C5_enum_lowering.1 .lazyMode []
    (SSumDecl.mk "Color" CTy.unknown
      [SSumCase.mk "R" CTy.unknown none 1,
       SSumCase.mk "G" CTy.unknown none 2,
       SSumCase.mk "B" CTy.unknown none 3] 0) rfl
    (by intro c hc; fin_cases hc <;> rfl)
  refine ⟨hcolor, ?_, ?_, rfl⟩
  · exact C5_enum_lowering.2.1 .lazyMode []
      (SSumDecl.mk "Color" CTy.unknown
        [SSumCase.mk "R" CTy.unknown none 1,
         SSumCase.mk "G" CTy.unknown none 2,
         SSumCase.mk "B" CTy.unknown none 3] 0) rfl
      (by intro c hc; fin_cases hc <;> rfl)
      (by decide) _ _ _ hcolor 1 (by decide)
  · exact C5_enum_lowering.2.2 .lazyMode []
      (SSumDecl.mk "E" CTy.unknown
        [SSumCase.mk "A" CTy.unknown
          (some (SStructDecl.mk "A" CTy.unknown
            [SMember.mk "x" CTy.int 4] 4)) 4,
         SSumCase.mk "B" CTy.unknown none 5] 0)
      (SSumCase.mk "A" CTy.unknown
        (some (SStructDecl.mk "A" CTy.unknown
          [SMember.mk "x" CTy.int 4] 4)) 4)
      (SStructDecl.mk "A" CTy.unknown [SMember.mk "x" CTy.int 4] 4)
      _ _ rfl (List.mem_cons_self _ _) rfl rfl rfl

/-! ### C4 helper lemmas: the resolver fix-point loop -/

/-- Unfolding `resolveMembers` on the empty member list. -/
theorem resolveMembers_nil (ctx : SymTab) (mode : ResolveMode) :
    resolveMembers ctx mode [] = .ok ([], .yes) := rfl

/-- Unfolding `resolveMembers` on a member cons cell. -/
theorem resolveMembers_cons (ctx : SymTab) (mode : ResolveMode)
    (m : SMember) (rest : List SMember) :
    resolveMembers ctx mode (m :: rest) =
      (match resolve_type ctx m.typ with
       | (t, flag) =>
          match flag with
          | .no =>
              match mode with
              | .lazyMode => .ok (m :: rest, .no)
              | .forcedMode =>
                  .error (.unknownName m.span (unresolvedName m.typ))
          | .yes =>
              match resolveMembers ctx mode rest with
              | .error e => .error e
              | .ok (rest2, flag2) =>
                  .ok ({ m with typ := t } :: rest2, flag2)) := rfl

/-- Unfolding `resolve_type` on an `Unresolved` name. -/
theorem resolve_type_unresolved (ctx : SymTab) (n : String) :
    resolve_type ctx (.unresolved n) =
      (match ctx.resolveType n with
       | some t => (t, .yes)
       | none => (.unresolved n, .no)) := rfl

/-- In `Forced` mode a successful member walk always reports `Yes`
(the `no` outcome is turned into an error instead). -/
theorem resolveMembers_forced_flag (ctx : SymTab) :
    ∀ ms ms2 flag, resolveMembers ctx .forcedMode ms = .ok (ms2, flag) →
      flag = TypeResolvedFlag.yes := by
  intro ms
  induction ms with
  | nil =>
      intro ms2 flag h
      rw [resolveMembers_nil] at h
      cases h
      rfl
  | cons m rest ih =>
      intro ms2 flag h
      rw [resolveMembers_cons] at h
      rcases hrt : resolve_type ctx m.typ with ⟨t, f⟩
      simp only [hrt] at h
      cases f with
      | no => cases h
      | yes =>
          cases hrec : resolveMembers ctx .forcedMode rest with
          | error e => simp only [hrec] at h; cases h
          | ok p =>
              rcases p with ⟨rest2, flag2⟩
              simp only [hrec] at h
              cases h
              exact ih _ _ hrec

/-- A successful `Forced` run of `resolve_struct_member_types` reports
`Yes` and leaves the declaration resolved. -/
theorem resolve_struct_member_types_forced (ctx : SymTab) (sd : SStructDecl)
    (sd2 : SStructDecl) (flag : TypeResolvedFlag)
    (h : resolve_struct_member_types ctx sd .forcedMode = .ok (sd2, flag)) :
    flag = TypeResolvedFlag.yes ∧ (!(sd2.typ == CTy.unknown)) = true := by
  unfold resolve_struct_member_types at h
  split at h
  · rename_i hcond
    cases h
    exact ⟨rfl, hcond⟩
  · split at h
    · cases h
    · rename_i members2 hmem
      have := resolveMembers_forced_flag ctx sd.members members2 .no hmem
      cases this
    · rename_i members2 hmem
      cases h
      exact ⟨rfl, rfl⟩

/-- A successful `resolve_struct_member_types` reporting `Yes` leaves the
declaration resolved (any mode). -/
theorem resolve_struct_member_types_yes (ctx : SymTab) (sd sd2 : SStructDecl)
    (mode : ResolveMode)
    (h : resolve_struct_member_types ctx sd mode = .ok (sd2, .yes)) :
    (!(sd2.typ == CTy.unknown)) = true := by
  unfold resolve_struct_member_types at h
  split at h
  · rename_i hcond
    cases h
    exact hcond
  · split at h
    · cases h
    · cases h
    · rename_i members2 hmem
      cases h
      rfl

/-- In `Forced` mode a successful case walk always reports `Yes`. -/
theorem resolveSumCases_forced_flag (ctx : SymTab) :
    ∀ cs cs2 caseTypes flag,
      resolveSumCases ctx .forcedMode cs = .ok (cs2, caseTypes, flag) →
      flag = TypeResolvedFlag.yes := by
  intro cs
  induction cs with
  | nil =>
      intro cs2 caseTypes flag h
      unfold resolveSumCases at h
      cases h
      rfl
  | cons c rest ih =>
      intro cs2 caseTypes flag h
      unfold resolveSumCases at h
      split at h
      · rename_i sd hdata
        split at h
        · cases h
        · rename_i sd2 hs
          have := (resolve_struct_member_types_forced ctx sd sd2 .no hs).1
          cases this
        · rename_i sd2 hs
          split at h
          · cases h
          · rename_i rest2 caseTypes2 flag2 hrec
            cases h
            exact ih _ _ _ hrec
      · split at h
        · cases h
        · rename_i rest2 caseTypes2 flag2 hrec
          cases h
          exact ih _ _ _ hrec

/-- A successful `Forced` run of `resolve_sum_case_types` reports `Yes`
and leaves the declaration resolved. -/
theorem resolve_sum_case_types_forced (ctx : SymTab) (st : SSumDecl)
    (ctx2 : SymTab) (st2 : SSumDecl) (flag : TypeResolvedFlag)
    (h : resolve_sum_case_types ctx st .forcedMode = .ok (ctx2, st2, flag)) :
    flag = TypeResolvedFlag.yes ∧ (!(st2.typ == CTy.unknown)) = true := by
  unfold resolve_sum_case_types at h
  split at h
  · rename_i hcond
    cases h
    exact ⟨rfl, hcond⟩
  · split at h
    · cases h
    · rename_i cases2 caseTypes hs
      have := resolveSumCases_forced_flag ctx st.cases cases2 caseTypes .no hs
      cases this
    · rename_i cases2 caseTypes hs
      split at h
      · cases h
        exact ⟨rfl, rfl⟩
      · rcases hsum : addSumCaseSyms caseTypes
            (SymTab.add ctx st.name (CTy.sum caseTypes none)) cases2 0
          with ⟨ctxS, casesS⟩
        simp only [hsum] at h
        cases h
        exact ⟨rfl, rfl⟩

/-- A successful `resolve_sum_case_types` reporting `Yes` leaves the
declaration resolved (any mode). -/
theorem resolve_sum_case_types_yes (ctx : SymTab) (st : SSumDecl)
    (ctx2 : SymTab) (st2 : SSumDecl) (mode : ResolveMode)
    (h : resolve_sum_case_types ctx st mode = .ok (ctx2, st2, .yes)) :
    (!(st2.typ == CTy.unknown)) = true := by
  unfold resolve_sum_case_types at h
  split at h
  · rename_i hcond
    cases h
    exact hcond
  · split at h
    · cases h
    · cases h
    · rename_i cases2 caseTypes hs
      split at h
      · cases h
        rfl
      · rcases hsum : addSumCaseSyms caseTypes
            (SymTab.add ctx st.name (CTy.sum caseTypes none)) cases2 0
          with ⟨ctxS, casesS⟩
        simp only [hsum] at h
        cases h
        rfl

/-- A pass preserves the declaration count, never counts more `Yes`
results than there are declarations, and a full count means every
declaration is resolved. -/
theorem resolveAllTypes_count (mode : ResolveMode) :
    ∀ decls ctx ctx2 decls2 n,
      resolveAllTypes ctx decls mode = .ok (ctx2, decls2, n) →
      decls2.length = decls.length ∧ n ≤ decls.length ∧
      (n = decls.length → ∀ d ∈ decls2, d.isResolved = true) := by
  intro decls
  induction decls with
  | nil =>
      intro ctx ctx2 decls2 n h
      unfold resolveAllTypes at h
      cases h
      exact ⟨rfl, Nat.le_refl 0,
        fun _ d hd => absurd hd (List.not_mem_nil d)⟩
  | cons d rest ih =>
      intro ctx ctx2 decls2 n h
      cases d with
      | structDecl s =>
          unfold resolveAllTypes at h
          split at h
          · cases h
          · rename_i s2 flag hs
            split at h
            rename_i ctx1 inc hpair
            split at h
            · cases h
            · rename_i ctx2s rest2 ns hrec
              cases h
              obtain ⟨hlen, hle, hall⟩ := ih _ _ _ _ hrec
              cases flag with
              | yes =>
                  cases hpair
                  refine ⟨by simp [hlen],
                    by simp only [List.length_cons]; omega, ?_⟩
                  intro hfull d2 hd2
                  simp only [List.length_cons] at hfull
                  cases hd2 with
                  | head =>
                      exact resolve_struct_member_types_yes ctx s s2 mode hs
                  | tail _ hmem =>
                      exact hall (by omega) d2 hmem
              | no =>
                  cases hpair
                  refine ⟨by simp [hlen],
                    by simp only [List.length_cons]; omega, ?_⟩
                  intro hfull
                  simp only [List.length_cons] at hfull
                  exact absurd hfull (by omega)
      | sumDecl s =>
          unfold resolveAllTypes at h
          split at h
          · cases h
          · rename_i ctxm s2 flag hs
            split at h
            · split at h
              · cases h
              · rename_i ctx2s rest2 ns hrec
                cases h
                obtain ⟨hlen, hle, hall⟩ := ih _ _ _ _ hrec
                refine ⟨by simp [hlen],
                  by simp only [List.length_cons]; omega, ?_⟩
                intro hfull d2 hd2
                simp only [List.length_cons] at hfull
                cases hd2 with
                | head =>
                    exact resolve_sum_case_types_yes ctx s ctxm s2 mode hs
                | tail _ hmem =>
                    exact hall (by omega) d2 hmem
            · split at h
              · cases h
              · rename_i ctx2s rest2 ns hrec
                cases h
                obtain ⟨hlen, hle, hall⟩ := ih _ _ _ _ hrec
                refine ⟨by simp [hlen],
                  by simp only [List.length_cons]; omega, ?_⟩
                intro hfull
                simp only [List.length_cons] at hfull
                exact absurd hfull (by omega)

/-- A successful `Forced` pass leaves every declaration resolved. -/
theorem resolveAllTypes_forced_resolved :
    ∀ decls ctx ctx2 decls2 n,
      resolveAllTypes ctx decls .forcedMode = .ok (ctx2, decls2, n) →
      ∀ d ∈ decls2, d.isResolved = true := by
  intro decls
  induction decls with
  | nil =>
      intro ctx ctx2 decls2 n h
      unfold resolveAllTypes at h
      cases h
      intro d hd
      cases hd
  | cons d rest ih =>
      intro ctx ctx2 decls2 n h
      cases d with
      | structDecl s =>
          unfold resolveAllTypes at h
          split at h
          · cases h
          · rename_i s2 flag hs
            split at h
            rename_i ctx1 inc hpair
            split at h
            · cases h
            · rename_i ctx2s rest2 ns hrec
              cases h
              intro d2 hd2
              cases hd2 with
              | head =>
                  exact (resolve_struct_member_types_forced ctx s s2 flag hs).2
              | tail _ hmem =>
                  exact ih _ _ _ _ hrec d2 hmem
      | sumDecl s =>
          unfold resolveAllTypes at h
          split at h
          · cases h
          · rename_i ctxm s2 flag hs
            split at h
            · split at h
              · cases h
              · rename_i ctx2s rest2 ns hrec
                cases h
                intro d2 hd2
                cases hd2 with
                | head =>
                    exact (resolve_sum_case_types_forced ctx s ctxm s2 .yes hs).2
                | tail _ hmem =>
                    exact ih _ _ _ _ hrec d2 hmem
            · have := (resolve_sum_case_types_forced ctx s ctxm s2 .no hs).1
              cases this

/-- Whenever the fix-point loop answers `ok`, every declaration is
resolved (both exits: the full-count lazy exit and the forced pass). -/
theorem resolveTypesLoop_ok_resolved :
    ∀ fuel ctx decls prev ctx2 decls2,
      resolveTypesLoop fuel ctx decls prev = some (.ok (ctx2, decls2)) →
      ∀ d ∈ decls2, d.isResolved = true := by
  intro fuel
  induction fuel with
  | zero =>
      intro ctx decls prev ctx2 decls2 h
      cases h
  | succ fuel ih =>
      intro ctx decls prev ctx2 decls2 h
      unfold resolveTypesLoop at h
      split at h
      · cases h
      · rename_i ctx1 decls1 n hlazy
        split at h
        · rename_i hn
          cases h
          obtain ⟨hlen, hle, hall⟩ :=
            resolveAllTypes_count .lazyMode decls ctx ctx2 decls2 n hlazy
          have hn2 : n = decls2.length := eq_of_beq hn
          exact hall (by omega)
        · split at h
          · rename_i hprev
            split at h
            · cases h
            · rename_i ctxF declsF k hforced
              cases h
              exact resolveAllTypes_forced_resolved decls1 ctx1 ctx2 decls2 k hforced
          · exact ih ctx1 decls1 n ctx2 decls2 h

/-- In `Forced` mode the member walk fails exactly at the first stuck
member, reporting its span and name. -/
theorem firstStuckMember_resolveMembers (ctx : SymTab) :
    ∀ ms sp nm, firstStuckMember ctx ms = some (sp, nm) →
      resolveMembers ctx .forcedMode ms = .error (.unknownName sp nm) := by
  intro ms
  induction ms with
  | nil =>
      intro sp nm h
      cases h
  | cons m rest ih =>
      intro sp nm h
      unfold firstStuckMember at h
      rw [resolveMembers_cons]
      cases hmt : m.typ
      case unresolved n =>
        simp only [hmt, resolve_type_unresolved] at h ⊢
        cases hlook : ctx.resolveType n with
        | none =>
            simp only [hlook] at h ⊢
            cases h
            rfl
        | some t =>
            simp only [hlook] at h ⊢
            rw [ih sp nm h]
      all_goals
        simp only [hmt] at h ⊢
        rw [ih sp nm h]
        rfl

/-- In `Forced` mode the member walk succeeds when no member is stuck. -/
theorem firstStuckMember_none_resolveMembers (ctx : SymTab) :
    ∀ ms, firstStuckMember ctx ms = none →
      ∃ ms2 flag, resolveMembers ctx .forcedMode ms = .ok (ms2, flag) := by
  intro ms
  induction ms with
  | nil =>
      intro h
      exact ⟨[], .yes, rfl⟩
  | cons m rest ih =>
      intro h
      unfold firstStuckMember at h
      rw [resolveMembers_cons]
      cases hmt : m.typ
      case unresolved n =>
        simp only [hmt, resolve_type_unresolved] at h ⊢
        cases hlook : ctx.resolveType n with
        | none =>
            simp only [hlook] at h
            cases h
        | some t =>
            simp only [hlook] at h ⊢
            obtain ⟨ms2, flag, hr⟩ := ih h
            rw [hr]
            exact ⟨_, _, rfl⟩
      all_goals
        simp only [hmt] at h ⊢
        obtain ⟨ms2, flag, hr⟩ := ih h
        rw [hr]
        exact ⟨_, _, rfl⟩

/-- In `Forced` mode the case walk fails exactly at the first stuck
occurrence among the cases' struct payloads. -/
theorem firstStuckCase_resolveSumCases (ctx : SymTab) :
    ∀ cs sp nm, firstStuckCase ctx cs = some (sp, nm) →
      resolveSumCases ctx .forcedMode cs = .error (.unknownName sp nm) := by
  intro cs
  induction cs with
  | nil =>
      intro sp nm h
      cases h
  | cons c rest ih =>
      intro sp nm h
      unfold firstStuckCase at h
      unfold resolveSumCases
      cases hcd : c.data with
      | none =>
          simp only [hcd] at h ⊢
          rw [ih sp nm h]
      | some sd =>
          simp only [hcd] at h ⊢
          cases hst : (sd.typ == CTy.unknown) with
          | false =>
              have hsr : resolve_struct_member_types ctx sd .forcedMode
                  = .ok (sd, .yes) := by
                unfold resolve_struct_member_types
                rw [hst]
                rfl
              rw [hsr]
              simp only [hst, Bool.not_false, if_true] at h
              rw [ih sp nm h]
          | true =>
              simp only [hst, Bool.not_true, Bool.false_eq_true, if_false] at h
              cases hfsm : firstStuckMember ctx sd.members with
              | some p =>
                  simp only [hfsm] at h
                  have hp : p = (sp, nm) := by injection h
                  subst hp
                  have hsr : resolve_struct_member_types ctx sd .forcedMode
                      = .error (.unknownName sp nm) := by
                    unfold resolve_struct_member_types
                    rw [hst]
                    simp only [Bool.not_true, Bool.false_eq_true, if_false]
                    rw [firstStuckMember_resolveMembers ctx sd.members sp nm hfsm]
                  rw [hsr]
              | none =>
                  simp only [hfsm] at h
                  obtain ⟨ms2, flag, hok⟩ :=
                    firstStuckMember_none_resolveMembers ctx sd.members hfsm
                  have hflag := resolveMembers_forced_flag ctx sd.members ms2 flag hok
                  subst hflag
                  have hsr : resolve_struct_member_types ctx sd .forcedMode = .ok ({ sd with members := ms2, typ := .struct (ms2.map (fun m => (m.name, m.typ))) }, .yes) := by
                    unfold resolve_struct_member_types
                    rw [hst]
                    simp only [Bool.not_true, Bool.false_eq_true, if_false]
                    rw [hok]
                  rw [hsr]
                  rw [ih sp nm h]

/-- C4: the resolver fix-point loop.  (1) Whenever `resolve_types`
succeeds, every type declaration is resolved.  (2) If a lazy pass neither
resolves everything nor improves on the previous resolved count, the loop
runs exactly one further pass in `Forced` mode and returns its outcome
(error or success) without iterating further.  (3)/(4) In `Forced` mode a
still-unresolved struct or sum declaration with a stuck member fails with
`UnknownName` at the span and name of its first unresolved occurrence, and
(5) such a declaration at the head of the list makes the whole forced pass
fail with exactly that error. -/
theorem C4_resolver_loop :
    (∀ ctx decls ctx2 decls2,
      resolve_types ctx decls = some (.ok (ctx2, decls2)) →
      ∀ d ∈ decls2, d.isResolved = true) ∧
    (∀ (fuel : Nat) (ctx : SymTab) (decls : List TypeDecl) (prev : Nat)
        (ctx1 : SymTab) (decls1 : List TypeDecl) (n : Nat),
      resolveAllTypes ctx decls .lazyMode = .ok (ctx1, decls1, n) →
      (n == decls1.length) = false →
      (prev == n) = true →
      resolveTypesLoop (fuel + 1) ctx decls prev =
        (match resolveAllTypes ctx1 decls1 .forcedMode with
         | .error e => some (.error e)
         | .ok (ctx2, decls2, _) => some (.ok (ctx2, decls2)))) ∧
    (∀ (ctx : SymTab) (sd : SStructDecl) (sp : Nat) (nm : String),
      sd.typ = CTy.unknown →
      firstStuckMember ctx sd.members = some (sp, nm) →
      resolve_struct_member_types ctx sd .forcedMode =
        .error (.unknownName sp nm)) ∧
    (∀ (ctx : SymTab) (st : SSumDecl) (sp : Nat) (nm : String),
      st.typ = CTy.unknown →
      firstStuckCase ctx st.cases = some (sp, nm) →
      resolve_sum_case_types ctx st .forcedMode =
        .error (.unknownName sp nm)) ∧
    (∀ (ctx : SymTab) (sd : SStructDecl) (rest : List TypeDecl)
        (sp : Nat) (nm : String),
      sd.typ = CTy.unknown →
      firstStuckMember ctx sd.members = some (sp, nm) →
      resolveAllTypes ctx (.structDecl sd :: rest) .forcedMode =
        .error (.unknownName sp nm)) := by
  have hstruct : ∀ (ctx : SymTab) (sd : SStructDecl) (sp : Nat) (nm : String),
      sd.typ = CTy.unknown →
      firstStuckMember ctx sd.members = some (sp, nm) →
      resolve_struct_member_types ctx sd .forcedMode =
        .error (.unknownName sp nm) := by
    intro ctx sd sp nm htyp hfsm
    unfold resolve_struct_member_types
    rw [htyp]
    simp only [CTy.beq_self, Bool.not_true, Bool.false_eq_true, if_false]
    rw [firstStuckMember_resolveMembers ctx sd.members sp nm hfsm]
  refine ⟨?_, ?_, hstruct, ?_, ?_⟩
  · intro ctx decls ctx2 decls2 h
    exact resolveTypesLoop_ok_resolved (decls.length + 1) ctx decls 0 ctx2 decls2 h
  · intro fuel ctx decls prev ctx1 decls1 n h1 h2 h3
    unfold resolveTypesLoop
    rw [h1]
    simp only [h2, Bool.false_eq_true, if_false, h3, if_true]
  · intro ctx st sp nm htyp hfsc
    unfold resolve_sum_case_types
    rw [htyp]
    simp only [CTy.beq_self, Bool.not_true, Bool.false_eq_true, if_false]
    rw [firstStuckCase_resolveSumCases ctx st.cases sp nm hfsc]
  · intro ctx sd rest sp nm htyp hfsm
    unfold resolveAllTypes
    rw [hstruct ctx sd sp nm htyp hfsm]

/-- C4 witness: the module `struct B { y: int }` resolves fully (so `B`
is resolved in the result); the module `struct A { x: Missing }` stalls
immediately (pass resolves 0 of 1), so the loop runs the single forced
pass, and the forced resolvers report `UnknownName` at the stuck member
`x: Missing` (span 7) of `A` and at the stuck payload member `z: Nope`
(span 9) of the sum `S`; end to end, resolving `[A]` yields
`UnknownName(7, Missing)`. -/
theorem C4_witness :
    TypeDecl.isResolved
      (.structDecl (SStructDecl.mk "B" (CTy.struct [("y", CTy.int)])
        [SMember.mk "y" CTy.int 2] 1)) = true ∧
    resolveTypesLoop 2 []
      [.structDecl (SStructDecl.mk "A" CTy.unknown
        [SMember.mk "x" (CTy.unresolved "Missing") 7] 1)] 0 =
      (match resolveAllTypes []
          [.structDecl (SStructDecl.mk "A" CTy.unknown
            [SMember.mk "x" (CTy.unresolved "Missing") 7] 1)]
          .forcedMode with
       | .error e => some (.error e)
       | .ok (ctx2, decls2, _) => some (.ok (ctx2, decls2))) ∧
    resolve_struct_member_types []
      (SStructDecl.mk "A" CTy.unknown
        [SMember.mk "x" (CTy.unresolved "Missing") 7] 1) .forcedMode =
      .error (.unknownName 7 "Missing") ∧
    resolve_sum_case_types []
      (SSumDecl.mk "S" CTy.unknown
        [SSumCase.mk "C" CTy.unknown
          (some (SStructDecl.mk "C" CTy.unknown
            [SMember.mk "z" (CTy.unresolved "Nope") 9] 9)) 9] 0)
      .forcedMode = .error (.unknownName 9 "Nope") ∧
    resolve_types []
      [.structDecl (SStructDecl.mk "A" CTy.unknown
        [SMember.mk "x" (CTy.unresolved "Missing") 7] 1)] =
      some (.error (.unknownName 7 "Missing")) := by
  refine ⟨?_, ?_, ?_, ?_, rfl⟩
  · exact C4_resolver_loop.1 []
      [.structDecl (SStructDecl.mk "B" CTy.unknown
        [SMember.mk "y" CTy.int 2] 1)]
      [("B", CTy.struct [("y", CTy.int)])]
      [.structDecl (SStructDecl.mk "B" (CTy.struct [("y", CTy.int)])
        [SMember.mk "y" CTy.int 2] 1)]
      rfl _ (List.mem_singleton.mpr rfl)
  · exact C4_resolver_loop.2.1 1 []
      [.structDecl (SStructDecl.mk "A" CTy.unknown
        [SMember.mk "x" (CTy.unresolved "Missing") 7] 1)] 0
      []
      [.structDecl (SStructDecl.mk "A" CTy.unknown
        [SMember.mk "x" (CTy.unresolved "Missing") 7] 1)] 0
      rfl rfl rfl
  · exact C4_resolver_loop.2.2.1 []
      (SStructDecl.mk "A" CTy.unknown
        [SMember.mk "x" (CTy.unresolved "Missing") 7] 1) 7 "Missing" rfl rfl
  · exact C4_resolver_loop.2.2.2.1 []
      (SSumDecl.mk "S" CTy.unknown
        [SSumCase.mk "C" CTy.unknown
          (some (SStructDecl.mk "C" CTy.unknown
            [SMember.mk "z" (CTy.unresolved "Nope") 9] 9)) 9] 0)
      9 "Nope" rfl rfl


/-! ### C7: the let-expression UnknownType retry -/

/-- Unfolding `tcLet` at a successor fuel value. -/
theorem tcLet_succ (fuel : Nat) (ctx : Ctx)
    (bindings : List (String × CExpr × CTy)) (body : CExpr) (ltyp : CTy) :
    tcLet (fuel + 1) ctx bindings body ltyp =
      (match tcLetBindings fuel ctx.pushStack bindings with
       | (ctx1, bs1, .error e) => (ctx1, .letE bs1 body ltyp, .error e)
       | (ctx1, bs1, .ok ()) =>
           match check fuel ctx1 body none with
           | (ctx2, body1, .ok t) => (ctx2.popStack, .letE bs1 body1 t, .ok t)
           | (ctx2, body1, .error cr) =>
               match cr with
               | .unknownType name expected =>
                   if (bs1.find? (fun b => b.1 == name)).isSome then
                     tcLetRetry fuel ctx2 bs1 body1 name expected ltyp
                   else (ctx2, .letE bs1 body1 ltyp,
                         .error (.unknownType name expected))
               | e => (ctx2, .letE bs1 body1 ltyp, .error e)) := rfl

/-- Unfolding `tcLetRetry` at a successor fuel value on a binding cons. -/
theorem tcLetRetry_cons (fuel : Nat) (ctx : Ctx) (b : String × CExpr × CTy)
    (rest : List (String × CExpr × CTy)) (body : CExpr) (name : String)
    (expected : CTy) (lt : CTy) :
    tcLetRetry (fuel + 1) ctx (b :: rest) body name expected lt =
      (if b.1 == name then
        match check fuel ctx b.2.1 (some expected) with
        | (ctx1, init1, .error e) =>
            (ctx1, .letE ((b.1, init1, b.2.2) :: rest) body lt, .error e)
        | (ctx1, init1, .ok bt) =>
            match check fuel (Ctx.update ctx1 b.1 bt) body none with
            | (ctx3, body1, .error e) =>
                (ctx3, .letE ((b.1, init1, bt) :: rest) body1 lt, .error e)
            | (ctx3, body1, .ok t2) =>
                (ctx3.popStack, .letE ((b.1, init1, bt) :: rest) body1 t2,
                 .ok t2)
      else
        match tcLetRetry fuel ctx rest body name expected lt with
        | (ctx1, .letE rest1 body1 t1, r) =>
            (ctx1, .letE (b :: rest1) body1 t1, r)
        | other => other) := rfl

/-- C7: the `UnknownType` retry of `type_check_let`.  (1) When the body
check raises `UnknownType(name, expected)` and `name` matches no binding,
the error is returned unchanged.  (2) When `name` matches a binding, the
let check is exactly one retry run over the checked bindings.  (3) The
retry at the first binding named `name` re-checks that binding's
initializer with `expected` as the hint, records the re-inferred type on
the binding and in the context (`Ctx.update`), and checks the body again
exactly once, popping the frame on success.  (4) The retry skips bindings
whose name differs, leaving them untouched. -/
theorem C7_let_unknown_type_retry :
    (∀ (fuel : Nat) (ctx : Ctx) (bindings : List (String × CExpr × CTy))
        (body : CExpr) (ltyp : CTy) (ctx1 : Ctx)
        (bs1 : List (String × CExpr × CTy)) (ctx2 : Ctx) (body1 : CExpr)
        (name : String) (expected : CTy),
      tcLetBindings fuel ctx.pushStack bindings = (ctx1, bs1, .ok ()) →
      check fuel ctx1 body none =
        (ctx2, body1, .error (.unknownType name expected)) →
      (bs1.find? (fun b => b.1 == name)).isSome = false →
      tcLet (fuel + 1) ctx bindings body ltyp =
        (ctx2, .letE bs1 body1 ltyp, .error (.unknownType name expected))) ∧
    (∀ (fuel : Nat) (ctx : Ctx) (bindings : List (String × CExpr × CTy))
        (body : CExpr) (ltyp : CTy) (ctx1 : Ctx)
        (bs1 : List (String × CExpr × CTy)) (ctx2 : Ctx) (body1 : CExpr)
        (name : String) (expected : CTy),
      tcLetBindings fuel ctx.pushStack bindings = (ctx1, bs1, .ok ()) →
      check fuel ctx1 body none =
        (ctx2, body1, .error (.unknownType name expected)) →
      (bs1.find? (fun b => b.1 == name)).isSome = true →
      tcLet (fuel + 1) ctx bindings body ltyp =
        tcLetRetry fuel ctx2 bs1 body1 name expected ltyp) ∧
    (∀ (fuel : Nat) (ctx : Ctx) (b : String × CExpr × CTy)
        (rest : List (String × CExpr × CTy)) (body : CExpr) (name : String)
        (expected : CTy) (lt : CTy),
      (b.1 == name) = true →
      tcLetRetry (fuel + 1) ctx (b :: rest) body name expected lt =
        (match check fuel ctx b.2.1 (some expected) with
         | (ctx1, init1, .error e) =>
             (ctx1, .letE ((b.1, init1, b.2.2) :: rest) body lt, .error e)
         | (ctx1, init1, .ok bt) =>
             match check fuel (Ctx.update ctx1 b.1 bt) body none with
             | (ctx3, body1, .error e) =>
                 (ctx3, .letE ((b.1, init1, bt) :: rest) body1 lt, .error e)
             | (ctx3, body1, .ok t2) =>
                 (ctx3.popStack, .letE ((b.1, init1, bt) :: rest) body1 t2,
                  .ok t2))) ∧
    (∀ (fuel : Nat) (ctx : Ctx) (b : String × CExpr × CTy)
        (rest : List (String × CExpr × CTy)) (body : CExpr) (name : String)
        (expected : CTy) (lt : CTy),
      (b.1 == name) = false →
      tcLetRetry (fuel + 1) ctx (b :: rest) body name expected lt =
        (match tcLetRetry fuel ctx rest body name expected lt with
         | (ctx1, .letE rest1 body1 t1, r) =>
             (ctx1, .letE (b :: rest1) body1 t1, r)
         | other => other)) := by
  refine ⟨?_, ?_, ?_, ?_⟩
  · intro fuel ctx bindings body ltyp ctx1 bs1 ctx2 body1 name expected
      hb hbody hfind
    rw [tcLet_succ]
    simp only [hb, hbody, hfind, Bool.false_eq_true, if_false]
  · intro fuel ctx bindings body ltyp ctx1 bs1 ctx2 body1 name expected
      hb hbody hfind
    rw [tcLet_succ]
    simp only [hb, hbody, hfind, eq_self_iff_true, if_true]
  · intro fuel ctx b rest body name expected lt hname
    rw [tcLetRetry_cons]
    simp only [hname, eq_self_iff_true, if_true]
  · intro fuel ctx b rest body name expected lt hname
    rw [tcLetRetry_cons]
    simp only [hname, Bool.false_eq_true, if_false]

/-- C7 witness.  Matching case: for `let f = \\x -> x in g(f)` with
`g : (int -> int) -> int`, the body check raises
`UnknownType(f, int -> int)`, `f` matches the binding, so the let check
equals one retry run; the retry re-checks the lambda with the hint,
updates the context and re-checks the body once; end to end the let
checks to `int` with the lambda instantiated at `int -> int`.
Non-matching case: with `f` bound to `Unknown` in an outer frame and a
let binding only `y`, the `UnknownType(f, ...)` error is returned
unchanged, and the retry skips the binding named `y`. -/
theorem C7_witness :
    tcLet 20 [[("g", CTy.func [CTy.func [CTy.int] CTy.int] CTy.int)]]
      [("f", (CExpr.lambdaE [("x", CTy.generic "T")] CTy.unknown
        (CExpr.nameRef "x" CTy.unknown), CTy.unknown))]
      (CExpr.callE "g" [CExpr.nameRef "f" CTy.unknown] [] CTy.unknown)
      CTy.unknown =
      tcLetRetry 19
        [[("f", CTy.unknown)],
         [("g", CTy.func [CTy.func [CTy.int] CTy.int] CTy.int)]]
        [("f", (CExpr.lambdaE [("x", CTy.generic "T")] CTy.unknown
          (CExpr.nameRef "x" CTy.unknown), CTy.unknown))]
        (CExpr.callE "g" [CExpr.nameRef "f" CTy.unknown] [] CTy.unknown)
        "f" (CTy.func [CTy.int] CTy.int) CTy.unknown ∧
    tcLetRetry 19
      [[("f", CTy.unknown)],
       [("g", CTy.func [CTy.func [CTy.int] CTy.int] CTy.int)]]
      [("f", (CExpr.lambdaE [("x", CTy.generic "T")] CTy.unknown
        (CExpr.nameRef "x" CTy.unknown), CTy.unknown))]
      (CExpr.callE "g" [CExpr.nameRef "f" CTy.unknown] [] CTy.unknown)
      "f" (CTy.func [CTy.int] CTy.int) CTy.unknown =
      (match check 18
          [[("f", CTy.unknown)],
           [("g", CTy.func [CTy.func [CTy.int] CTy.int] CTy.int)]]
          (CExpr.lambdaE [("x", CTy.generic "T")] CTy.unknown
            (CExpr.nameRef "x" CTy.unknown))
          (some (CTy.func [CTy.int] CTy.int)) with
       | (ctx1, init1, .error e) =>
           (ctx1, .letE [("f", init1, CTy.unknown)]
             (CExpr.callE "g" [CExpr.nameRef "f" CTy.unknown] [] CTy.unknown)
             CTy.unknown, .error e)
       | (ctx1, init1, .ok bt) =>
           match check 18 (Ctx.update ctx1 "f" bt)
               (CExpr.callE "g" [CExpr.nameRef "f" CTy.unknown] []
                 CTy.unknown) none with
           | (ctx3, body1, .error e) =>
               (ctx3, .letE [("f", init1, bt)] body1 CTy.unknown, .error e)
           | (ctx3, body1, .ok t2) =>
               (ctx3.popStack, .letE [("f", init1, bt)] body1 t2,
                .ok t2)) ∧
    tcLet 20
      [[("g", CTy.func [CTy.func [CTy.int] CTy.int] CTy.int),
        ("f", CTy.unknown)]]
      [("y", (CExpr.intLit 1, CTy.unknown))]
      (CExpr.callE "g" [CExpr.nameRef "f" CTy.unknown] [] CTy.unknown)
      CTy.unknown =
      ([[("y", CTy.int)],
        [("g", CTy.func [CTy.func [CTy.int] CTy.int] CTy.int),
         ("f", CTy.unknown)]],
       .letE [("y", CExpr.intLit 1, CTy.int)]
         (CExpr.callE "g" [CExpr.nameRef "f" CTy.unknown] [] CTy.unknown)
         CTy.unknown,
       .error (.unknownType "f" (CTy.func [CTy.int] CTy.int))) ∧
    tcLetRetry 19
      [[("y", CTy.int)],
       [("g", CTy.func [CTy.func [CTy.int] CTy.int] CTy.int),
        ("f", CTy.unknown)]]
      [("y", CExpr.intLit 1, CTy.int)]
      (CExpr.callE "g" [CExpr.nameRef "f" CTy.unknown] [] CTy.unknown)
      "f" (CTy.func [CTy.int] CTy.int) CTy.unknown =
      (match tcLetRetry 18
          [[("y", CTy.int)],
           [("g", CTy.func [CTy.func [CTy.int] CTy.int] CTy.int),
            ("f", CTy.unknown)]]
          []
          (CExpr.callE "g" [CExpr.nameRef "f" CTy.unknown] [] CTy.unknown)
          "f" (CTy.func [CTy.int] CTy.int) CTy.unknown with
       | (ctx1, .letE rest1 body1 t1, r) =>
           (ctx1, .letE (("y", CExpr.intLit 1, CTy.int) :: rest1) body1 t1,
            r)
       | other => other) ∧
    tcLet 20 [[("g", CTy.func [CTy.func [CTy.int] CTy.int] CTy.int)]]
      [("f", (CExpr.lambdaE [("x", CTy.generic "T")] CTy.unknown
        (CExpr.nameRef "x" CTy.unknown), CTy.unknown))]
      (CExpr.callE "g" [CExpr.nameRef "f" CTy.unknown] [] CTy.unknown)
      CTy.unknown =
      ([[("g", CTy.func [CTy.func [CTy.int] CTy.int] CTy.int)]],
       .letE [("f", CExpr.lambdaE [("x", CTy.int)] CTy.int
           (CExpr.nameRef "x" CTy.int), CTy.func [CTy.int] CTy.int)]
         (CExpr.callE "g" [CExpr.nameRef "f" (CTy.func [CTy.int] CTy.int)]
           [] CTy.int)
         CTy.int,
       .ok CTy.int) := by
  refine ⟨?_, ?_, ?_, ?_, rfl⟩
  · exact C7_let_unknown_type_retry.2.1 19
      [[("g", CTy.func [CTy.func [CTy.int] CTy.int] CTy.int)]]
      [("f", (CExpr.lambdaE [("x", CTy.generic "T")] CTy.unknown
        (CExpr.nameRef "x" CTy.unknown), CTy.unknown))]
      (CExpr.callE "g" [CExpr.nameRef "f" CTy.unknown] [] CTy.unknown)
      CTy.unknown
      [[("f", CTy.unknown)],
       [("g", CTy.func [CTy.func [CTy.int] CTy.int] CTy.int)]]
      [("f", (CExpr.lambdaE [("x", CTy.generic "T")] CTy.unknown
        (CExpr.nameRef "x" CTy.unknown), CTy.unknown))]
      [[("f", CTy.unknown)],
       [("g", CTy.func [CTy.func [CTy.int] CTy.int] CTy.int)]]
      (CExpr.callE "g" [CExpr.nameRef "f" CTy.unknown] [] CTy.unknown)
      "f" (CTy.func [CTy.int] CTy.int) rfl rfl rfl
  · exact C7_let_unknown_type_retry.2.2.1 18
      [[("f", CTy.unknown)],
       [("g", CTy.func [CTy.func [CTy.int] CTy.int] CTy.int)]]
      ("f", (CExpr.lambdaE [("x", CTy.generic "T")] CTy.unknown
        (CExpr.nameRef "x" CTy.unknown), CTy.unknown))
      []
      (CExpr.callE "g" [CExpr.nameRef "f" CTy.unknown] [] CTy.unknown)
      "f" (CTy.func [CTy.int] CTy.int) CTy.unknown rfl
  · exact C7_let_unknown_type_retry.1 19
      [[("g", CTy.func [CTy.func [CTy.int] CTy.int] CTy.int),
        ("f", CTy.unknown)]]
      [("y", (CExpr.intLit 1, CTy.unknown))]
      (CExpr.callE "g" [CExpr.nameRef "f" CTy.unknown] [] CTy.unknown)
      CTy.unknown
      [[("y", CTy.int)],
       [("g", CTy.func [CTy.func [CTy.int] CTy.int] CTy.int),
        ("f", CTy.unknown)]]
      [("y", CExpr.intLit 1, CTy.int)]
      [[("y", CTy.int)],
       [("g", CTy.func [CTy.func [CTy.int] CTy.int] CTy.int),
        ("f", CTy.unknown)]]
      (CExpr.callE "g" [CExpr.nameRef "f" CTy.unknown] [] CTy.unknown)
      "f" (CTy.func [CTy.int] CTy.int) rfl rfl rfl
  · exact C7_let_unknown_type_retry.2.2.2 18
      [[("y", CTy.int)],
       [("g", CTy.func [CTy.func [CTy.int] CTy.int] CTy.int),
        ("f", CTy.unknown)]]
      ("y", CExpr.intLit 1, CTy.int)
      []
      (CExpr.callE "g" [CExpr.nameRef "f" CTy.unknown] [] CTy.unknown)
      "f" (CTy.func [CTy.int] CTy.int) CTy.unknown rfl


end TC

end Cobra
